import Mathlib

/-!
# The ECS CNI bridge plugin (`plugins/bridge/main.go`)

A shallow embedding of `createBridge`, `add` and `del`.  The netlink, namespace, veth and JSON
libraries the plugin calls are not part of the repository: they are the fields of an environment
`Env σ` over an arbitrary kernel state `σ`.  Every call into the environment is logged, with its
outcome, in the `trace` of the `World` the program threads through.
-/

set_option autoImplicit false

namespace BridgePlugin

/-! ## Go values -/

/-- A Go `error` value: a `syscall.Errno`, an error built from a text (`errors.Errorf`,
`fmt.Errorf`, errors of the libraries), or `errors.Wrap cause message`. -/
inductive Error where
  | Errno (n : Nat)
  | New (text : String)
  | Wrap (cause : Error) (message : String)
  deriving DecidableEq, Repr

/-- The text `err.Error()`; `strerror` is the errno table of the Go runtime.  A wrapped error
prints as `message: cause`. -/
def Error.message (strerror : Nat → String) : Error → String
  | .Errno n => strerror n
  | .New text => text
  | .Wrap cause message => message ++ ": " ++ Error.message strerror cause

/-- The errno `syscall.EEXIST`. -/
def syscall.EEXIST : Error := .Errno 17

/-- The call `errors.Wrap(err, message)` for a non-nil `err`. -/
def errors.Wrap (err : Error) (message : String) : Error := .Wrap err message

/-- The call `errors.Errorf("%s is not a bridge device", name)`: the format has the one verb. -/
def errors.Errorf_is_not_a_bridge_device (name : String) : Error :=
  .New (name ++ " is not a bridge device")

/-- The fields of `netlink.LinkAttrs` the plugin and the claims about it read. -/
structure LinkAttrs where
  Index : Nat
  MTU : Nat
  Name : String
  Up : Bool
  MasterIndex : Nat
  deriving DecidableEq, Repr

/-- The dynamic type of a `netlink.Link`. -/
inductive LinkKind where
  | bridge
  | veth
  | dummy
  | device
  deriving DecidableEq, Repr

/-- A `netlink.Link`: a dynamic type and its `Attrs()`. -/
structure Link where
  kind : LinkKind
  attrs : LinkAttrs
  deriving DecidableEq, Repr

/-- The struct `netlink.Bridge{LinkAttrs}`. -/
structure Bridge where
  LinkAttrs : LinkAttrs
  deriving DecidableEq, Repr

/-- A `*netlink.Bridge` used as a `netlink.Link`. -/
def Bridge.toLink (b : Bridge) : Link := ⟨.bridge, b.LinkAttrs⟩

/-- The type assertion `link.(*netlink.Bridge)`. -/
def Link.asBridge (link : Link) : Option Bridge :=
  if link.kind = .bridge then some ⟨link.attrs⟩ else none

/-- An `ns.NetNS` handle. -/
structure NetNS where
  path : String
  deriving DecidableEq, Repr

/-- The struct `types.NetConf` embedded in the plugin's `NetConf`. -/
structure NetConf where
  CNIVersion : String
  Name : String
  PluginType : String
  deriving DecidableEq, Repr

/-- The struct `skel.CmdArgs`. -/
structure CmdArgs where
  ContainerID : String
  Netns : String
  IfName : String
  Args : String
  Path : String
  StdinData : List Nat
  deriving DecidableEq, Repr

deriving instance DecidableEq for Except

/-! ## The environment and the logged calls -/

/-- The library functions the plugin calls, over a kernel state `σ`.  `Enter` and `Restore` are the
two namespace switches of `netns.Do`; `Enter` hands back the handle of the namespace it left. -/
structure Env (σ : Type) where
  Unmarshal : List Nat → Except Error NetConf
  NewLinkAttrs : LinkAttrs
  LinkAdd : Link → σ → Option Error × σ
  LinkByName : String → σ → Except Error Link × σ
  LinkSetUp : Link → σ → Option Error × σ
  LinkSetMaster : Link → Bridge → σ → Option Error × σ
  GetNS : String → σ → Except Error NetNS × σ
  Close : NetNS → σ → σ
  Enter : NetNS → σ → Except Error NetNS × σ
  Restore : NetNS → σ → σ
  SetupVeth : String → Nat → NetNS → σ → Except Error Link × σ

/-- One call into the environment, with its arguments and what it returned. -/
inductive Event where
  | LinkAdd (link : Link) (err : Option Error)
  | LinkByName (name : String) (res : Except Error Link)
  | LinkSetUp (link : Link) (err : Option Error)
  | LinkSetMaster (link : Link) (master : Bridge) (err : Option Error)
  | GetNS (path : String) (res : Except Error NetNS)
  | Close (netns : NetNS)
  | Enter (netns : NetNS) (res : Except Error NetNS)
  | Restore (hostNS : NetNS)
  | SetupVeth (name : String) (mtu : Nat) (hostNS : NetNS) (res : Except Error Link)
  deriving DecidableEq

/-- The kernel state and the log of the calls made so far. -/
structure World (σ : Type) where
  state : σ
  trace : List Event
  deriving DecidableEq

/-- The world at the start of an invocation: nothing logged yet. -/
def World.init {σ : Type} (s : σ) : World σ := ⟨s, []⟩

variable {σ : Type}

/-- The call `netlink.LinkAdd(link)`. -/
def netlink.LinkAdd (E : Env σ) (link : Link) (w : World σ) : Option Error × World σ :=
  let r := E.LinkAdd link w.state
  (r.1, ⟨r.2, w.trace ++ [Event.LinkAdd link r.1]⟩)

/-- The call `netlink.LinkByName(name)`. -/
def netlink.LinkByName (E : Env σ) (name : String) (w : World σ) : Except Error Link × World σ :=
  let r := E.LinkByName name w.state
  (r.1, ⟨r.2, w.trace ++ [Event.LinkByName name r.1]⟩)

/-- The call `netlink.LinkSetUp(link)`. -/
def netlink.LinkSetUp (E : Env σ) (link : Link) (w : World σ) : Option Error × World σ :=
  let r := E.LinkSetUp link w.state
  (r.1, ⟨r.2, w.trace ++ [Event.LinkSetUp link r.1]⟩)

/-- The call `netlink.LinkSetMaster(link, master)`. -/
def netlink.LinkSetMaster (E : Env σ) (link : Link) (master : Bridge) (w : World σ) :
    Option Error × World σ :=
  let r := E.LinkSetMaster link master w.state
  (r.1, ⟨r.2, w.trace ++ [Event.LinkSetMaster link master r.1]⟩)

/-- The call `ns.GetNS(path)`. -/
def ns.GetNS (E : Env σ) (path : String) (w : World σ) : Except Error NetNS × World σ :=
  let r := E.GetNS path w.state
  (r.1, ⟨r.2, w.trace ++ [Event.GetNS path r.1]⟩)

/-- The call `netns.Close()`; the plugin drops the error it returns. -/
def ns.Close (E : Env σ) (netns : NetNS) (w : World σ) : World σ :=
  ⟨E.Close netns w.state, w.trace ++ [Event.Close netns]⟩

/-- The switch into `netns` at the start of `netns.Do`. -/
def ns.Enter (E : Env σ) (netns : NetNS) (w : World σ) : Except Error NetNS × World σ :=
  let r := E.Enter netns w.state
  (r.1, ⟨r.2, w.trace ++ [Event.Enter netns r.1]⟩)

/-- The switch back at the end of `netns.Do`. -/
def ns.Restore (E : Env σ) (hostNS : NetNS) (w : World σ) : World σ :=
  ⟨E.Restore hostNS w.state, w.trace ++ [Event.Restore hostNS]⟩

/-- The call `ip.SetupVeth(contVethName, mtu, hostNS)`; the plugin keeps the host end only. -/
def ip.SetupVeth (E : Env σ) (contVethName : String) (mtu : Nat) (hostNS : NetNS) (w : World σ) :
    Except Error Link × World σ :=
  let r := E.SetupVeth contVethName mtu hostNS w.state
  (r.1, ⟨r.2, w.trace ++ [Event.SetupVeth contVethName mtu hostNS r.1]⟩)

/-- Modelled from the spec: `netns.Do(toRun)` of the CNI `ns` package, which is not in the
repository.  The thread enters the target namespace; when it cannot, `Do` fails at once and
`toRun` is not run; otherwise `toRun` runs with the handle of the namespace left behind and the
thread is switched back whether `toRun` failed or not.  `L` holds the variables `toRun`
captures. -/
def ns.Do {L : Type} (E : Env σ) (netns : NetNS)
    (toRun : NetNS → L → World σ → Option Error × L × World σ) (l : L) (w : World σ) :
    Option Error × L × World σ :=
  match ns.Enter E netns w with
  | (.error err, w) => (some err, l, w)
  | (.ok hostNS, w) =>
    match toRun hostNS l w with
    | (err, l, w) => (err, l, ns.Restore E hostNS w)

/-! ## The plugin -/

/-- The constant `bridgeName`. -/
def bridgeName : String := "eni-br0"

/-- The link `&netlink.Bridge{la}` that `createBridge` passes to `LinkAdd`. -/
def newBridge (E : Env σ) : Bridge :=
  let la := E.NewLinkAttrs
  let la := { la with Name := bridgeName }
  ⟨la⟩

/-- The function `createBridge` of `main.go`. -/
def createBridge (E : Env σ) (w : World σ) : Except Error Bridge × World σ :=
  let bridge := newBridge E
  match netlink.LinkAdd E bridge.toLink w with
  | (err, w) =>
    -- err != nil && err != syscall.EEXIST
    match err.filter (fun e => e ≠ syscall.EEXIST) with
    | some err => (.error (errors.Wrap err "error creating bridge"), w)
    | none =>
      match netlink.LinkByName E bridgeName w with
      | (.error err, w) => (.error (errors.Wrap err "error looking up bridge device"), w)
      | (.ok bridgeLink, w) =>
        match bridgeLink.asBridge with
        | none => (.error (errors.Errorf_is_not_a_bridge_device bridgeName), w)
        | some bridge =>
          match netlink.LinkSetUp E bridge.toLink w with
          | (some err, w) => (.error (errors.Wrap err "failed to enable bridge device"), w)
          | (none, w) => (.ok bridge, w)

/-- The function literal that `add` passes to `netns.Do`; `hostIfaceName` is the variable of `add`
it assigns. -/
def add.toRun (E : Env σ) (args : CmdArgs) (hostNS : NetNS) (hostIfaceName : String)
    (w : World σ) : Option Error × String × World σ :=
  match ip.SetupVeth E args.IfName 1500 hostNS w with
  | (.error err, w) => (some err, hostIfaceName, w)
  | (.ok hostVeth, w) => (none, hostVeth.attrs.Name, w)

/-- The function `add` of `main.go`.  The deferred `netns.Close()` runs on every return after `GetNS`
succeeded. -/
def add (E : Env σ) (args : CmdArgs) (w : World σ) : Option Error × World σ :=
  match E.Unmarshal args.StdinData with
  | .error err => (some err, w)
  | .ok _conf =>
    match createBridge E w with
    | (.error err, w) => (some err, w)
    | (.ok bridge, w) =>
      match ns.GetNS E args.Netns w with
      | (.error err, w) => (some err, w)
      | (.ok netns, w) =>
        let ret : Option Error × World σ :=
          match ns.Do E netns (add.toRun E args) "" w with
          | (some err, _, w) => (some err, w)
          | (none, hostIfaceName, w) =>
            match netlink.LinkByName E hostIfaceName w with
            | (.error err, w) => (some err, w)
            | (.ok hostVeth, w) =>
              match netlink.LinkSetMaster E hostVeth bridge w with
              | (some err, w) => (some err, w)
              | (none, w) => (none, w)
        (ret.1, ns.Close E netns ret.2)

/-- The function `del` of `main.go`. -/
def del (_E : Env σ) (_args : CmdArgs) (w : World σ) : Option Error × World σ :=
  (none, w)

/-! ## A kernel that behaves normally

The netlink, `ns` and `ip` libraries and the kernel behind them are not in the repository.  The
model below is the environment the statements about link tables are made in: a link table for the
host namespace, one for each container namespace (addressed by its path), and the operations with
their ordinary outcome.  A namespace is reached through a path of the file system; several paths
may lead to one namespace, and a path may lead to the host namespace itself. -/

/-- Modelled from the spec: the kernel's link directory, which is outside the repository: the
link table of the host namespace, the link tables of the other namespaces by their name, the
namespace each namespace path leads to (`none` is the host namespace), the next free interface
index, and the names the kernel will assign to the host ends of veth pairs, in order. -/
structure Kernel where
  host : List Link
  netns : List (String × List Link)
  paths : List (String × Option String)
  nextIndex : Nat
  vethNames : List String
  deriving DecidableEq, Repr

/-- Modelled from the spec: the kernel together with the namespace the calling thread is in, which
is outside the repository; `none` is the host namespace, where the plugin is started. -/
structure Sys where
  kernel : Kernel
  cur : Option String
  deriving DecidableEq, Repr

/-- The world in which the plugin is started on kernel `k`: thread in the host namespace, empty
log. -/
def boot (k : Kernel) : World Sys := World.init ⟨k, none⟩

/-- Whether table `t` has a device called `name`. -/
def hasName (t : List Link) (name : String) : Bool := t.any (fun l => l.attrs.Name == name)

/-- The device of table `t` called `name`. -/
def byName (t : List Link) (name : String) : Option Link :=
  t.find? (fun l => l.attrs.Name == name)

/-- Whether table `t` has a device with interface index `i`. -/
def hasIndex (t : List Link) (i : Nat) : Bool := t.any (fun l => l.attrs.Index == i)

/-- Table `t` with the device of index `i` set administratively up. -/
def setUp (t : List Link) (i : Nat) : List Link :=
  t.map (fun l => if l.attrs.Index = i then { l with attrs := { l.attrs with Up := true } } else l)

/-- Table `t` with the master of the device of index `i` set to `m`. -/
def setMaster (t : List Link) (i m : Nat) : List Link :=
  t.map (fun l =>
    if l.attrs.Index = i then { l with attrs := { l.attrs with MasterIndex := m } } else l)

/-- The link table of the namespace called `path`, the host namespace apart. -/
def nsTable (netns : List (String × List Link)) (path : String) : Option (List Link) :=
  (netns.find? (fun e => e.1 == path)).map (fun e => e.2)

/-- The namespace that `path` leads to, when it leads to one: `some none` is the host
namespace, `some (some id)` the namespace called `id`. -/
def nsOfPath (paths : List (String × Option String)) (path : String) :
    Option (Option String) :=
  (paths.find? (fun e => e.1 == path)).map (fun e => e.2)

/-- Modelled from the spec: the kernel's rule for the name of a device, which is outside the
repository: not empty, at most 15 bytes, not `.` or `..`, not `all` or `default` (which the
per-device settings reserve), and without a NUL, a blank (space, tab, line feed, vertical tab,
form feed, carriage return), a slash, a colon or a percent sign (with which the kernel reads the
name as a pattern). -/
def validIfName (name : String) : Bool :=
  name != "" && decide (name.utf8ByteSize ≤ 15) && name != "." && name != ".." &&
  name != "all" && name != "default" &&
  name.data.all (fun c =>
    !(c.toNat == 0 || (decide (9 ≤ c.toNat) && decide (c.toNat ≤ 13)) || c.toNat == 32 ||
      c.toNat == 37 || c.toNat == 47 || c.toNat == 58))

/-- The namespaces with the table of the one called `path` replaced by `t`. -/
def nsUpdate (netns : List (String × List Link)) (path : String) (t : List Link) :
    List (String × List Link) :=
  netns.map (fun e => if e.1 = path then (e.1, t) else e)

/-- The link table of the namespace the thread is in. -/
def Sys.table (s : Sys) : List Link :=
  match s.cur with
  | none => s.kernel.host
  | some path => (nsTable s.kernel.netns path).getD []

/-- Replace the link table of the namespace the thread is in. -/
def Sys.setTable (s : Sys) (t : List Link) : Sys :=
  match s.cur with
  | none => { s with kernel := { s.kernel with host := t } }
  | some path => { s with kernel := { s.kernel with netns := nsUpdate s.kernel.netns path t } }

/-- Set the next free interface index. -/
def Sys.setNextIndex (s : Sys) (n : Nat) : Sys :=
  { s with kernel := { s.kernel with nextIndex := n } }

namespace Model

/-- Modelled from the spec: `netlink.LinkAdd`, outside the repository: a device whose name is taken
is refused with EEXIST, a fresh name is added to the table of the current namespace under the next
interface index. -/
def LinkAdd (link : Link) (s : Sys) : Option Error × Sys :=
  if hasName s.table link.attrs.Name then (some syscall.EEXIST, s)
  else
    let dev : Link := { link with attrs := { link.attrs with Index := s.kernel.nextIndex } }
    (none, (s.setTable (s.table ++ [dev])).setNextIndex (s.kernel.nextIndex + 1))

/-- Modelled from the spec: `netlink.LinkByName`, outside the repository: finds the device of that
name in the current namespace. -/
def LinkByName (name : String) (s : Sys) : Except Error Link × Sys :=
  match byName s.table name with
  | some l => (.ok l, s)
  | none => (.error (.New "Link not found"), s)

/-- Modelled from the spec: `netlink.LinkSetUp`, outside the repository: sets the device with the
link's index up; ENODEV when there is none. -/
def LinkSetUp (link : Link) (s : Sys) : Option Error × Sys :=
  if hasIndex s.table link.attrs.Index then (none, s.setTable (setUp s.table link.attrs.Index))
  else (some (.Errno 19), s)

/-- Modelled from the spec: `netlink.LinkSetMaster`, outside the repository: enslaves the device
with the link's index to the master's index; ENODEV when there is none. -/
def LinkSetMaster (link : Link) (master : Bridge) (s : Sys) : Option Error × Sys :=
  if hasIndex s.table link.attrs.Index then
    (none, s.setTable (setMaster s.table link.attrs.Index master.LinkAttrs.Index))
  else (some (.Errno 19), s)

/-- Modelled from the spec: `ns.GetNS`, outside the repository: a handle to the namespace `path`
leads to, when it leads to one. -/
def GetNS (path : String) (s : Sys) : Except Error NetNS × Sys :=
  match nsOfPath s.kernel.paths path with
  | some _ => (.ok ⟨path⟩, s)
  | none => (.error (.New ("open " ++ path ++ ": no such file or directory")), s)

/-- Modelled from the spec: `netns.Close`, outside the repository: releases the handle; no link
table changes. -/
def Close (_netns : NetNS) (s : Sys) : Sys := s

/-- The handle of the host namespace. -/
def hostNS : NetNS := ⟨"/proc/self/ns/net"⟩

/-- Modelled from the spec: the switch into the target namespace of `netns.Do`, outside the
repository: the thread is in the namespace the handle leads to, which may be the host namespace
itself; fails when the handle leads to no namespace. -/
def Enter (netns : NetNS) (s : Sys) : Except Error NetNS × Sys :=
  match nsOfPath s.kernel.paths netns.path with
  | some none => (.ok hostNS, { s with cur := none })
  | some (some id) =>
    match nsTable s.kernel.netns id with
    | some _ => (.ok hostNS, { s with cur := some id })
    | none => (.error (.New ("error switching to ns " ++ netns.path)), s)
  | none => (.error (.New ("error switching to ns " ++ netns.path)), s)

/-- Modelled from the spec: the switch back of `netns.Do`, outside the repository: the thread is in
the host namespace again. -/
def Restore (_hostNS : NetNS) (s : Sys) : Sys := { s with cur := none }

/-- Modelled from the spec: `ip.SetupVeth`, outside the repository: creates a veth pair, one end
called `name` kept in the current (target) namespace, the other in the host namespace with MTU
`mtu` and the next kernel-assigned name; returns the host end.  It fails when one of the two
names is not a device name, when `name` is taken in the target namespace or is the assigned name
itself, and, after the container end was created, when the assigned name is taken in the host
namespace. -/
def SetupVeth (name : String) (mtu : Nat) (_hostNS : NetNS) (s : Sys) : Except Error Link × Sys :=
  match s.kernel.vethNames with
  | [] => (.error (.New "failed to find a unique veth name"), s)
  | hostName :: names =>
    let s : Sys := { s with kernel := { s.kernel with vethNames := names } }
    if !(validIfName name && validIfName hostName) then
      (.error (.New "failed to make veth pair: invalid argument"), s)
    else if hasName s.table name || name == hostName then
      (.error (.New ("container veth name provided (" ++ name ++ ") already exists")), s)
    else
      let n := s.kernel.nextIndex
      let contVeth : Link := ⟨.veth, ⟨n, mtu, name, true, 0⟩⟩
      let s := (s.setTable (s.table ++ [contVeth])).setNextIndex (n + 2)
      if hasName s.kernel.host hostName then
        (.error (.New "failed to move veth to host netns: file exists"), s)
      else
        let hostVeth : Link := ⟨.veth, ⟨n + 1, mtu, hostName, true, 0⟩⟩
        (.ok hostVeth, { s with kernel := { s.kernel with host := s.kernel.host ++ [hostVeth] } })

/-- The environment of the normally behaving kernel; `dec` stands for `json.Unmarshal`. -/
def env (dec : List Nat → Except Error NetConf) : Env Sys where
  Unmarshal := dec
  NewLinkAttrs := ⟨0, 0, "", false, 0⟩
  LinkAdd := LinkAdd
  LinkByName := LinkByName
  LinkSetUp := LinkSetUp
  LinkSetMaster := LinkSetMaster
  GetNS := GetNS
  Close := Close
  Enter := Enter
  Restore := Restore
  SetupVeth := SetupVeth

/-- The decoder of the examples: it knows the empty input, on which `json.Unmarshal` fails, and
the empty object, which decodes to the zero `NetConf`. -/
def exampleUnmarshal (data : List Nat) : Except Error NetConf :=
  if data = [123, 125] then .ok ⟨"", "", ""⟩
  else .error (.New "unexpected end of JSON input")

/-- The steps of `add` that call into the kernel. -/
inductive Step where
  | bridgeCreate
  | bridgeLookup
  | bridgeSetUp
  | acquire
  | switch
  | veth
  | hostLookup
  | setMaster
  deriving DecidableEq, Repr

/-- The normally behaving kernel, except that the kernel operation of step `step` fails with
`cause` and changes nothing. -/
def failing (dec : List Nat → Except Error NetConf) (step : Step) (cause : Error) : Env Sys where
  Unmarshal := dec
  NewLinkAttrs := ⟨0, 0, "", false, 0⟩
  LinkAdd := fun l s => if step = .bridgeCreate then (some cause, s) else LinkAdd l s
  LinkByName := fun name s =>
    if (step = .bridgeLookup ∧ name = bridgeName) ∨ (step = .hostLookup ∧ name ≠ bridgeName) then
      (.error cause, s)
    else LinkByName name s
  LinkSetUp := fun l s => if step = .bridgeSetUp then (some cause, s) else LinkSetUp l s
  LinkSetMaster := fun l m s => if step = .setMaster then (some cause, s) else LinkSetMaster l m s
  GetNS := fun path s => if step = .acquire then (.error cause, s) else GetNS path s
  Close := Close
  Enter := fun h s => if step = .switch then (.error cause, s) else Enter h s
  Restore := Restore
  SetupVeth := fun name mtu h s =>
    if step = .veth then (.error cause, s) else SetupVeth name mtu h s

end Model

/-! ## Reading a trace -/

/-- The release calls: the switch back of `netns.Do` and `netns.Close()`. -/
def Event.isRelease : Event → Bool
  | .Restore _ => true
  | .Close _ => true
  | _ => false

/-- Whether the event is a `netns.Close()`. -/
def Event.isClose : Event → Bool
  | .Close _ => true
  | _ => false

/-- The error the logged call returned, if it returned one. -/
def Event.err : Event → Option Error
  | .LinkAdd _ err => err
  | .LinkByName _ (.error err) => some err
  | .LinkSetUp _ err => err
  | .LinkSetMaster _ _ err => err
  | .GetNS _ (.error err) => some err
  | .Enter _ (.error err) => some err
  | .SetupVeth _ _ _ (.error err) => some err
  | _ => none

/-- Whether the logged call failed; `LinkAdd` answering EEXIST is not a failure. -/
def Event.failed : Event → Bool
  | .LinkAdd _ err => (err.filter (fun e => e ≠ syscall.EEXIST)).isSome
  | ev => ev.err.isSome

/-- The namespace handle a successful `ns.GetNS` in the trace returned. -/
def acquired (t : List Event) : Option NetNS :=
  t.findSome? (fun ev => match ev with
    | .GetNS _ (.ok netns) => some netns
    | _ => none)

/-- The log from the first failed call on. -/
def firstFailure (t : List Event) : List Event := t.dropWhile (fun ev => !ev.failed)

/-- The devices of table `t` called `name`. -/
def devicesNamed (t : List Link) (name : String) : List Link :=
  t.filter (fun d => decide (d.attrs.Name = name))

/-- The devices of `after` whose name no device of `before` has, the bridge `eni-br0` apart. -/
def newDevices (before after : List Link) : List Link :=
  after.filter (fun d => !hasName before d.attrs.Name && decide (d.attrs.Name ≠ bridgeName))

/-! ## The shapes of a run -/

/-- The results and logs one `createBridge` run can produce. -/
inductive BridgeRun (E : Env σ) : Except Error Bridge → List Event → Prop where
  | create (c : Error) (hc : c ≠ syscall.EEXIST) :
      BridgeRun E (.error (.Wrap c "error creating bridge"))
        [.LinkAdd (newBridge E).toLink (some c)]
  | lookup (r : Option Error) (hr : (Event.LinkAdd (newBridge E).toLink r).failed = false) (c : Error) :
      BridgeRun E (.error (.Wrap c "error looking up bridge device"))
        [.LinkAdd (newBridge E).toLink r, .LinkByName bridgeName (.error c)]
  | conflict (r : Option Error) (hr : (Event.LinkAdd (newBridge E).toLink r).failed = false) (l : Link)
      (hl : l.asBridge = none) :
      BridgeRun E (.error (.New (bridgeName ++ " is not a bridge device")))
        [.LinkAdd (newBridge E).toLink r, .LinkByName bridgeName (.ok l)]
  | enable (r : Option Error) (hr : (Event.LinkAdd (newBridge E).toLink r).failed = false) (l : Link)
      (b : Bridge) (hl : l.asBridge = some b) (c : Error) :
      BridgeRun E (.error (.Wrap c "failed to enable bridge device"))
        [.LinkAdd (newBridge E).toLink r, .LinkByName bridgeName (.ok l),
         .LinkSetUp b.toLink (some c)]
  | done (r : Option Error) (hr : (Event.LinkAdd (newBridge E).toLink r).failed = false) (l : Link)
      (b : Bridge) (hl : l.asBridge = some b) :
      BridgeRun E (.ok b)
        [.LinkAdd (newBridge E).toLink r, .LinkByName bridgeName (.ok l),
         .LinkSetUp b.toLink none]

/-- The results and logs one `add` invocation can produce; `t` is the log of its `createBridge`. -/
inductive Run (E : Env σ) (args : CmdArgs) : Option Error → List Event → Prop where
  | decode (c : Error) : Run E args (some c) []
  | bridge (c : Error) (t : List Event) (ht : BridgeRun E (.error c) t) : Run E args (some c) t
  | acquire (b : Bridge) (t : List Event) (ht : BridgeRun E (.ok b) t) (c : Error) :
      Run E args (some c) (t ++ [.GetNS args.Netns (.error c)])
  | switch (b : Bridge) (t : List Event) (ht : BridgeRun E (.ok b) t) (n : NetNS) (c : Error) :
      Run E args (some c) (t ++ [.GetNS args.Netns (.ok n), .Enter n (.error c), .Close n])
  | veth (b : Bridge) (t : List Event) (ht : BridgeRun E (.ok b) t) (n hostNS : NetNS)
      (c : Error) :
      Run E args (some c) (t ++ [.GetNS args.Netns (.ok n), .Enter n (.ok hostNS),
        .SetupVeth args.IfName 1500 hostNS (.error c), .Restore hostNS, .Close n])
  | hostLookup (b : Bridge) (t : List Event) (ht : BridgeRun E (.ok b) t) (n hostNS : NetNS)
      (v : Link) (c : Error) :
      Run E args (some c) (t ++ [.GetNS args.Netns (.ok n), .Enter n (.ok hostNS),
        .SetupVeth args.IfName 1500 hostNS (.ok v), .Restore hostNS,
        .LinkByName v.attrs.Name (.error c), .Close n])
  | setMaster (b : Bridge) (t : List Event) (ht : BridgeRun E (.ok b) t) (n hostNS : NetNS)
      (v hv : Link) (c : Error) :
      Run E args (some c) (t ++ [.GetNS args.Netns (.ok n), .Enter n (.ok hostNS),
        .SetupVeth args.IfName 1500 hostNS (.ok v), .Restore hostNS,
        .LinkByName v.attrs.Name (.ok hv), .LinkSetMaster hv b (some c), .Close n])
  | done (b : Bridge) (t : List Event) (ht : BridgeRun E (.ok b) t) (n hostNS : NetNS)
      (v hv : Link) :
      Run E args none (t ++ [.GetNS args.Netns (.ok n), .Enter n (.ok hostNS),
        .SetupVeth args.IfName 1500 hostNS (.ok v), .Restore hostNS,
        .LinkByName v.attrs.Name (.ok hv), .LinkSetMaster hv b none, .Close n])

/-! ## Example inputs -/

namespace Example

/-- The namespace paths of the examples: `ns-A` and `ns-B` lead to the namespaces of these names,
`/proc/self/ns/net` to the host namespace. -/
def paths : List (String × Option String) :=
  [("ns-A", some "ns-A"), ("ns-B", some "ns-B"), ("/proc/self/ns/net", none)]

/-- A host with no device, two empty container namespaces. -/
def k0 : Kernel := ⟨[], [("ns-A", []), ("ns-B", [])], paths, 1, ["veth0", "veth1"]⟩

/-- The invocation for `eth7` in `ns-A`. -/
def argsA : CmdArgs := ⟨"c1", "ns-A", "eth7", "", "/opt/cni/bin", [123, 125]⟩

/-- The invocation of `argsA` with an empty standard input. -/
def argsEmpty : CmdArgs := { argsA with StdinData := [] }

/-- A dummy device that occupies the name of the bridge. -/
def squatter (up : Bool) : Link := ⟨.dummy, ⟨1, 1500, "eni-br0", up, 0⟩⟩

/-- A host on which the name of the bridge is taken by a dummy device. -/
def kSquat (up : Bool) : Kernel := ⟨[squatter up], [("ns-A", [])], paths, 2, ["veth0"]⟩

/-- A host whose namespace `ns-A` already has a device `eth7`. -/
def kTaken : Kernel :=
  ⟨[], [("ns-A", [⟨.dummy, ⟨1, 1500, "eth7", false, 0⟩⟩]), ("ns-B", [])], paths, 2,
    ["veth0", "veth1"]⟩

/-- The invocation for `eth7` whose target is the host namespace itself. -/
def argsHost : CmdArgs := { argsA with Netns := "/proc/self/ns/net" }

end Example

/-! ## The runs of `createBridge` and `add` -/

@[simp]
theorem Event.failed_LinkAdd_some (l : Link) (c : Error) :
    (Event.LinkAdd l (some c)).failed = decide (c ≠ syscall.EEXIST) := by
  by_cases h : c = syscall.EEXIST <;> simp [Event.failed, Option.filter, h]

@[simp]
theorem Event.failed_LinkAdd_none (l : Link) : (Event.LinkAdd l none).failed = false := rfl

@[simp]
theorem Event.failed_LinkByName (n : String) (r : Except Error Link) :
    (Event.LinkByName n r).failed = (Event.LinkByName n r).err.isSome := rfl

@[simp]
theorem Event.failed_LinkSetUp (l : Link) (r : Option Error) :
    (Event.LinkSetUp l r).failed = r.isSome := rfl

@[simp]
theorem Event.failed_LinkSetMaster (l : Link) (m : Bridge) (r : Option Error) :
    (Event.LinkSetMaster l m r).failed = r.isSome := rfl

@[simp]
theorem Event.failed_GetNS (n : String) (r : Except Error NetNS) :
    (Event.GetNS n r).failed = (Event.GetNS n r).err.isSome := rfl

@[simp]
theorem Event.failed_Enter (n : NetNS) (r : Except Error NetNS) :
    (Event.Enter n r).failed = (Event.Enter n r).err.isSome := rfl

@[simp]
theorem Event.failed_SetupVeth (n : String) (mtu : Nat) (h : NetNS)
    (r : Except Error Link) :
    (Event.SetupVeth n mtu h r).failed = (Event.SetupVeth n mtu h r).err.isSome := rfl

@[simp]
theorem Event.failed_Close (n : NetNS) : (Event.Close n).failed = false := rfl

@[simp]
theorem Event.failed_Restore (n : NetNS) : (Event.Restore n).failed = false := rfl

theorem createBridge_run (E : Env σ) (w : World σ) :
    ∃ t, (createBridge E w).2.trace = w.trace ++ t ∧ BridgeRun E (createBridge E w).1 t := by
  simp only [createBridge, netlink.LinkAdd, netlink.LinkByName, netlink.LinkSetUp, errors.Wrap,
    errors.Errorf_is_not_a_bridge_device]
  rcases E.LinkAdd (newBridge E).toLink w.state with ⟨r, s1⟩
  simp only []
  cases hr : Option.filter (fun e => decide (e ≠ syscall.EEXIST)) r with
  | some c =>
    simp only []
    have h1 : r = some c := by
      cases r with
      | none => simp at hr
      | some e => simp [Option.filter] at hr; simp [hr.2]
    have h2 : c ≠ syscall.EEXIST := by
      subst h1; simp [Option.filter] at hr; exact hr
    subst h1
    exact ⟨_, rfl, BridgeRun.create c h2⟩
  | none =>
    simp only []
    replace hr : (Event.LinkAdd (newBridge E).toLink r).failed = false := by
      cases r with
      | none => rfl
      | some e => simp [Option.filter] at hr; simp [hr]
    rcases E.LinkByName bridgeName s1 with ⟨r2, s2⟩
    cases r2 with
    | error c => exact ⟨_, by simp, BridgeRun.lookup r hr c⟩
    | ok l =>
      simp only []
      cases hl : l.asBridge with
      | none => exact ⟨_, by simp, BridgeRun.conflict r hr l hl⟩
      | some b =>
        simp only []
        rcases E.LinkSetUp b.toLink s2 with ⟨r3, s3⟩
        cases r3 with
        | some c => exact ⟨_, by simp, BridgeRun.enable r hr l b hl c⟩
        | none => exact ⟨_, by simp, BridgeRun.done r hr l b hl⟩

theorem add_run (E : Env σ) (args : CmdArgs) (s : σ) :
    Run E args (add E args (World.init s)).1 (add E args (World.init s)).2.trace := by
  unfold add
  cases E.Unmarshal args.StdinData with
  | error c => exact Run.decode c
  | ok conf =>
    simp only []
    obtain ⟨t, ht, hrun⟩ := createBridge_run E (World.init s)
    generalize createBridge E (World.init s) = cb at ht hrun ⊢
    obtain ⟨rb, s1, t1⟩ := cb
    simp only [World.init, List.nil_append] at ht hrun
    subst ht
    cases rb with
    | error c => exact Run.bridge c _ hrun
    | ok b =>
      simp only [ns.GetNS, ns.Do, ns.Enter, ns.Restore, ns.Close, add.toRun, ip.SetupVeth,
        netlink.LinkByName, netlink.LinkSetMaster]
      rcases E.GetNS args.Netns s1 with ⟨r2, s2⟩
      cases r2 with
      | error c => exact Run.acquire b _ hrun c
      | ok n =>
        simp only []
        rcases E.Enter n s2 with ⟨r3, s3⟩
        cases r3 with
        | error c => simpa using Run.switch b _ hrun n c
        | ok hostNS =>
          simp only []
          rcases E.SetupVeth args.IfName 1500 hostNS s3 with ⟨r4, s4⟩
          cases r4 with
          | error c => simpa using Run.veth b _ hrun n hostNS c
          | ok v =>
            simp only []
            rcases E.LinkByName v.attrs.Name (E.Restore hostNS s4) with ⟨r5, s5⟩
            cases r5 with
            | error c => simpa using Run.hostLookup b _ hrun n hostNS v c
            | ok hv =>
              simp only []
              rcases E.LinkSetMaster hv b s5 with ⟨r6, s6⟩
              cases r6 with
              | some c => simpa using Run.setMaster b _ hrun n hostNS v hv c
              | none => simpa using Run.done b _ hrun n hostNS v hv

theorem String.append_right_cancel (a b m : String) (h : a ++ m = b ++ m) : a = b := by
  have h1 : (a ++ m).data = (b ++ m).data := by rw [h]
  simp only [String.data_append] at h1
  exact String.ext (List.append_cancel_right h1)

/-! ## Link tables -/

theorem hasName_eq_isSome (t : List Link) (n : String) : hasName t n = (byName t n).isSome := by
  induction t with
  | nil => rfl
  | cons a t ih =>
    simp only [hasName, byName, List.any_cons, List.find?_cons] at ih ⊢
    cases h : (a.attrs.Name == n) <;> simp [ih]

theorem byName_mem {t : List Link} {n : String} {l : Link} (h : byName t n = some l) :
    l ∈ t ∧ l.attrs.Name = n := by
  have h1 := List.find?_some h
  have h2 := List.mem_of_find?_eq_some h
  exact ⟨h2, by simpa using h1⟩

theorem byName_nil (n : String) : byName [] n = none := rfl

theorem byName_cons (a : Link) (t : List Link) (n : String) :
    byName (a :: t) n = if a.attrs.Name = n then some a else byName t n := by
  by_cases h : a.attrs.Name = n <;> simp [byName, List.find?_cons, h]

theorem byName_append (t u : List Link) (n : String) :
    byName (t ++ u) n = (byName t n).or (byName u n) := by
  simp [byName, List.find?_append]

theorem hasIndex_of_mem {t : List Link} {l : Link} (h : l ∈ t) :
    hasIndex t l.attrs.Index = true := by
  simp only [hasIndex, List.any_eq_true]
  exact ⟨l, h, by simp⟩

theorem byName_setUp (t : List Link) (i : Nat) (n : String) :
    byName (setUp t i) n = (byName t n).map
      (fun l => if l.attrs.Index = i then { l with attrs := { l.attrs with Up := true } } else l) := by
  induction t with
  | nil => rfl
  | cons a t ih =>
    simp only [byName, setUp, List.map_cons, List.find?_cons] at ih ⊢
    by_cases hi : a.attrs.Index = i <;> cases h : (a.attrs.Name == n) <;> simp [hi, h, ih]

theorem byName_setMaster (t : List Link) (i m : Nat) (n : String) :
    byName (setMaster t i m) n = (byName t n).map
      (fun l =>
        if l.attrs.Index = i then { l with attrs := { l.attrs with MasterIndex := m } } else l) := by
  induction t with
  | nil => rfl
  | cons a t ih =>
    simp only [byName, setMaster, List.map_cons, List.find?_cons] at ih ⊢
    by_cases hi : a.attrs.Index = i <;> cases h : (a.attrs.Name == n) <;> simp [hi, h, ih]

theorem setUp_setUp (t : List Link) (i : Nat) : setUp (setUp t i) i = setUp t i := by
  simp only [setUp, List.map_map]
  apply List.map_congr_left
  intro l _
  by_cases hi : l.attrs.Index = i <;> simp [hi]

theorem map_name_setUp (t : List Link) (i : Nat) :
    (setUp t i).map (fun l => l.attrs.Name) = t.map (fun l => l.attrs.Name) := by
  simp only [setUp, List.map_map]
  apply List.map_congr_left
  intro l _
  by_cases hi : l.attrs.Index = i <;> simp [hi]

theorem hasName_eq_mem (t : List Link) (n : String) :
    hasName t n = decide (n ∈ t.map (fun l => l.attrs.Name)) := by
  induction t with
  | nil => simp [hasName]
  | cons a t ih =>
    simp only [hasName, List.any_cons] at ih ⊢
    rw [ih]
    by_cases h : a.attrs.Name = n
    · simp [h]
    · have h2 : ¬ n = a.attrs.Name := fun e => h e.symm
      simp [h, h2]

theorem byName_of_mem_nodup {t : List Link} {l : Link}
    (hnd : (t.map (fun l => l.attrs.Name)).Nodup) (hl : l ∈ t) :
    byName t l.attrs.Name = some l := by
  induction t with
  | nil => simp at hl
  | cons a t ih =>
    simp only [List.map_cons, List.nodup_cons] at hnd
    rw [byName_cons]
    rcases List.mem_cons.mp hl with rfl | hm
    · simp
    · have hne : a.attrs.Name ≠ l.attrs.Name := by
        intro e
        exact hnd.1 (e ▸ List.mem_map_of_mem _ hm)
      simp [hne, ih hnd.2 hm]

theorem filter_name_of_byName {t : List Link} {n : String} {l : Link}
    (hnd : (t.map (fun l => l.attrs.Name)).Nodup) (h : byName t n = some l) :
    t.filter (fun d => decide (d.attrs.Name = n)) = [l] := by
  induction t with
  | nil => simp [byName_nil] at h
  | cons a t ih =>
    simp only [List.map_cons, List.nodup_cons] at hnd
    rw [byName_cons] at h
    by_cases ha : a.attrs.Name = n
    · simp only [ha, if_true, Option.some.injEq] at h
      subst h
      have : t.filter (fun d => decide (d.attrs.Name = n)) = [] := by
        rw [List.filter_eq_nil_iff]
        intro d hd
        simp only [decide_eq_true_eq]
        intro e
        exact hnd.1 (by rw [ha, ← e]; exact List.mem_map_of_mem _ hd)
      simp [List.filter_cons, ha, this]
    · simp only [ha, if_false] at h
      simp [List.filter_cons, ha, ih hnd.2 h]

theorem byName_none_not_mem {t : List Link} {n : String} (h : byName t n = none) :
    n ∉ t.map (fun l => l.attrs.Name) := by
  have h1 : hasName t n = false := by simp [hasName_eq_isSome, h]
  rw [hasName_eq_mem] at h1
  simpa using h1

theorem byName_eq_none_of_hasName {t : List Link} {n : String} (h : hasName t n = false) :
    byName t n = none := by
  rw [hasName_eq_isSome] at h
  cases hb : byName t n with
  | none => rfl
  | some l => simp [hb] at h

theorem filter_setMaster_name (q : String → Bool) (t : List Link) (i m : Nat) :
    (setMaster t i m).filter (fun d => q d.attrs.Name) =
      setMaster (t.filter (fun d => q d.attrs.Name)) i m := by
  induction t with
  | nil => rfl
  | cons a t ih =>
    simp only [setMaster, List.map_cons, List.filter_cons] at ih ⊢
    by_cases hi : a.attrs.Index = i <;> cases hq : q a.attrs.Name <;> simp [hi, hq, ih]

theorem nsTable_nsUpdate_self (netns : List (String × List Link)) (path : String)
    (t u : List Link) (h : nsTable netns path = some t) :
    nsTable (nsUpdate netns path u) path = some u := by
  induction netns with
  | nil => simp [nsTable] at h
  | cons a r ih =>
    simp only [nsTable, nsUpdate, List.map_cons, List.find?_cons] at ih h ⊢
    by_cases ha : a.1 = path
    · simp [ha]
    · simp only [ha, if_false, beq_iff_eq, Bool.false_eq_true] at h ⊢
      have : (a.1 == path) = false := by simpa using ha
      simp only [this] at h ⊢
      exact ih h

theorem Model.createBridge_existing (dec : List Nat → Except Error NetConf) (k : Kernel)
    (tr : List Event) (l : Link) (h : byName k.host bridgeName = some l)
    (hk : l.kind = .bridge) :
    createBridge (Model.env dec) ⟨⟨k, none⟩, tr⟩ =
      (.ok ⟨l.attrs⟩, ⟨⟨{ k with host := setUp k.host l.attrs.Index }, none⟩,
        tr ++ [.LinkAdd (newBridge (Model.env dec)).toLink (some syscall.EEXIST),
               .LinkByName bridgeName (.ok l), .LinkSetUp ⟨.bridge, l.attrs⟩ none]⟩) := by
  have hn : hasName k.host bridgeName = true := by simp [hasName_eq_isSome, h]
  have hi : hasIndex k.host l.attrs.Index = true := hasIndex_of_mem (byName_mem h).1
  simp [createBridge, netlink.LinkAdd, netlink.LinkByName, netlink.LinkSetUp, Model.env,
    Model.LinkAdd, Model.LinkByName, Model.LinkSetUp, Sys.table, Sys.setTable, newBridge,
    Bridge.toLink, hn, h, hi, Link.asBridge, hk, Option.filter, syscall.EEXIST]

theorem Model.createBridge_conflict (dec : List Nat → Except Error NetConf) (k : Kernel)
    (tr : List Event) (l : Link) (h : byName k.host bridgeName = some l)
    (hk : l.kind ≠ .bridge) :
    createBridge (Model.env dec) ⟨⟨k, none⟩, tr⟩ =
      (.error (.New "eni-br0 is not a bridge device"), ⟨⟨k, none⟩,
        tr ++ [.LinkAdd (newBridge (Model.env dec)).toLink (some syscall.EEXIST),
               .LinkByName bridgeName (.ok l)]⟩) := by
  have hn : hasName k.host bridgeName = true := by simp [hasName_eq_isSome, h]
  simp [createBridge, netlink.LinkAdd, netlink.LinkByName, netlink.LinkSetUp, Model.env,
    Model.LinkAdd, Model.LinkByName, Model.LinkSetUp, Sys.table, Sys.setTable, newBridge,
    Bridge.toLink, hn, h, Link.asBridge, hk, Option.filter, syscall.EEXIST,
    errors.Errorf_is_not_a_bridge_device]
  rfl

theorem Model.createBridge_fresh (dec : List Nat → Except Error NetConf) (k : Kernel)
    (tr : List Event) (h : byName k.host bridgeName = none) :
    createBridge (Model.env dec) ⟨⟨k, none⟩, tr⟩ =
      (.ok ⟨⟨k.nextIndex, 0, bridgeName, false, 0⟩⟩,
       ⟨⟨{ k with host := setUp (k.host ++ [⟨.bridge, ⟨k.nextIndex, 0, bridgeName, false, 0⟩⟩])
                    k.nextIndex,
                  nextIndex := k.nextIndex + 1 }, none⟩,
        tr ++ [.LinkAdd (newBridge (Model.env dec)).toLink none,
               .LinkByName bridgeName (.ok ⟨.bridge, ⟨k.nextIndex, 0, bridgeName, false, 0⟩⟩),
               .LinkSetUp ⟨.bridge, ⟨k.nextIndex, 0, bridgeName, false, 0⟩⟩ none]⟩) := by
  have hn : hasName k.host bridgeName = false := by simp [hasName_eq_isSome, h]
  simp [createBridge, netlink.LinkAdd, netlink.LinkByName, netlink.LinkSetUp, Model.env,
    Model.LinkAdd, Model.LinkByName, Model.LinkSetUp, Sys.table, Sys.setTable, newBridge,
    Bridge.toLink, hn, h, Link.asBridge, Option.filter, Sys.setNextIndex, byName_append,
    hasIndex, byName_cons, byName_nil]

theorem Model.createBridge_ok_post (dec : List Nat → Except Error NetConf) (k : Kernel)
    (tr : List Event) (b : Bridge) (w1 : World Sys)
    (h : createBridge (Model.env dec) ⟨⟨k, none⟩, tr⟩ = (.ok b, w1)) :
    ∃ k1 tr1 l1, w1 = ⟨⟨k1, none⟩, tr1⟩ ∧ byName k1.host bridgeName = some l1 ∧
      l1.kind = .bridge ∧ l1.attrs.Up = true ∧ l1.attrs.Index = b.LinkAttrs.Index ∧
      (k1.host.map (fun d => d.attrs.Name) = k.host.map (fun d => d.attrs.Name) ∨
       k1.host.map (fun d => d.attrs.Name) = k.host.map (fun d => d.attrs.Name) ++ [bridgeName]) ∧
      k1.paths = k.paths := by
  cases hb : byName k.host bridgeName with
  | some l =>
    by_cases hk : l.kind = .bridge
    · rw [Model.createBridge_existing dec k tr l hb hk] at h
      simp only [Prod.mk.injEq, Except.ok.injEq] at h
      obtain ⟨rfl, rfl⟩ := h
      refine ⟨_, _, { l with attrs := { l.attrs with Up := true } }, rfl, ?_, hk, rfl, rfl,
        Or.inl (map_name_setUp _ _), rfl⟩
      simp [byName_setUp, hb]
    · rw [Model.createBridge_conflict dec k tr l hb hk] at h
      simp at h
  | none =>
    rw [Model.createBridge_fresh dec k tr hb] at h
    simp only [Prod.mk.injEq, Except.ok.injEq] at h
    obtain ⟨rfl, rfl⟩ := h
    refine ⟨_, _, ⟨.bridge, ⟨k.nextIndex, 0, bridgeName, true, 0⟩⟩, rfl, ?_, rfl, rfl, rfl,
      Or.inr ?_, rfl⟩
    · simp [byName_setUp, byName_append, hb, byName_cons, byName_nil]
    · simp [map_name_setUp]

/-- The successful run of `add` after a successful `createBridge`, for a target that is not the
host namespace. -/
theorem Model.add_attach (dec : List Nat → Except Error NetConf) (args : CmdArgs)
    (k k1 : Kernel) (tr tr1 : List Event) (conf : NetConf) (b : Bridge) (id : String)
    (tbl : List Link) (hn : String) (rest : List String)
    (hdec : dec args.StdinData = .ok conf)
    (hcb : createBridge (Model.env dec) ⟨⟨k, none⟩, tr⟩ = (.ok b, ⟨⟨k1, none⟩, tr1⟩))
    (hp : nsOfPath k1.paths args.Netns = some (some id))
    (hns : nsTable k1.netns id = some tbl)
    (hv : k1.vethNames = hn :: rest)
    (hvn : validIfName args.IfName = true) (hvh : validIfName hn = true)
    (hc : hasName tbl args.IfName = false) (hd : args.IfName ≠ hn)
    (hh : hasName k1.host hn = false) :
    add (Model.env dec) args ⟨⟨k, none⟩, tr⟩ =
      (none,
       ⟨⟨⟨setMaster (k1.host ++ [⟨.veth, ⟨k1.nextIndex + 1, 1500, hn, true, 0⟩⟩])
            (k1.nextIndex + 1) b.LinkAttrs.Index,
          nsUpdate k1.netns id
            (tbl ++ [⟨.veth, ⟨k1.nextIndex, 1500, args.IfName, true, 0⟩⟩]),
          k1.paths, k1.nextIndex + 2, rest⟩, none⟩,
        tr1 ++ [.GetNS args.Netns (.ok ⟨args.Netns⟩), .Enter ⟨args.Netns⟩ (.ok Model.hostNS),
          .SetupVeth args.IfName 1500 Model.hostNS
            (.ok ⟨.veth, ⟨k1.nextIndex + 1, 1500, hn, true, 0⟩⟩),
          .Restore Model.hostNS,
          .LinkByName hn (.ok ⟨.veth, ⟨k1.nextIndex + 1, 1500, hn, true, 0⟩⟩),
          .LinkSetMaster ⟨.veth, ⟨k1.nextIndex + 1, 1500, hn, true, 0⟩⟩ b none,
          .Close ⟨args.Netns⟩]⟩) := by
  have hdec2 : (Model.env dec).Unmarshal args.StdinData = .ok conf := hdec
  have hb : byName k1.host hn = none := byName_eq_none_of_hasName hh
  unfold add
  simp only [hdec2, hcb]
  simp [ns.GetNS, ns.Do, ns.Enter, ns.Restore, ns.Close, add.toRun, ip.SetupVeth,
    netlink.LinkByName, netlink.LinkSetMaster, Model.env, Model.GetNS, Model.Enter,
    Model.Restore, Model.Close, Model.SetupVeth, Model.LinkByName, Model.LinkSetMaster,
    Sys.table, Sys.setTable, Sys.setNextIndex, hp, hns, hv, hvn, hvh, hc, hd, hh, hb,
    byName_append, byName_cons, byName_nil, hasIndex]

theorem Model.add_ok_inv (dec : List Nat → Except Error NetConf) (args : CmdArgs)
    (k k1 : Kernel) (tr tr1 : List Event) (conf : NetConf) (b : Bridge)
    (hdec : dec args.StdinData = .ok conf)
    (hcb : createBridge (Model.env dec) ⟨⟨k, none⟩, tr⟩ = (.ok b, ⟨⟨k1, none⟩, tr1⟩))
    (hnh : nsOfPath k1.paths args.Netns ≠ some none)
    (h : (add (Model.env dec) args ⟨⟨k, none⟩, tr⟩).1 = none) :
    ∃ id tbl hn rest, nsOfPath k1.paths args.Netns = some (some id) ∧
      nsTable k1.netns id = some tbl ∧ k1.vethNames = hn :: rest ∧
      validIfName args.IfName = true ∧ validIfName hn = true ∧
      hasName tbl args.IfName = false ∧ args.IfName ≠ hn ∧ hasName k1.host hn = false := by
  have hdec2 : (Model.env dec).Unmarshal args.StdinData = .ok conf := hdec
  unfold add at h
  simp only [hdec2, hcb] at h
  cases hp : nsOfPath k1.paths args.Netns with
  | none => simp [ns.GetNS, Model.env, Model.GetNS, hp] at h
  | some ref =>
    cases ref with
    | none => exact absurd hp hnh
    | some id =>
      cases hns : nsTable k1.netns id with
      | none =>
        simp [ns.GetNS, ns.Do, ns.Enter, ns.Close, Model.env, Model.GetNS, Model.Enter, hp,
          hns] at h
      | some tbl =>
        cases hv : k1.vethNames with
        | nil =>
          simp [ns.GetNS, ns.Do, ns.Enter, ns.Restore, ns.Close, add.toRun, ip.SetupVeth,
            Model.env, Model.GetNS, Model.Enter, Model.SetupVeth, hp, hns, hv] at h
        | cons hn rest =>
          cases hvn : validIfName args.IfName with
          | false =>
            simp [ns.GetNS, ns.Do, ns.Enter, ns.Restore, ns.Close, add.toRun, ip.SetupVeth,
              Model.env, Model.GetNS, Model.Enter, Model.SetupVeth, hp, hns, hv, hvn] at h
          | true =>
            cases hvh : validIfName hn with
            | false =>
              simp [ns.GetNS, ns.Do, ns.Enter, ns.Restore, ns.Close, add.toRun, ip.SetupVeth,
                Model.env, Model.GetNS, Model.Enter, Model.SetupVeth, hp, hns, hv, hvn,
                hvh] at h
            | true =>
              cases hc : hasName tbl args.IfName with
              | true =>
                simp [ns.GetNS, ns.Do, ns.Enter, ns.Restore, ns.Close, add.toRun, ip.SetupVeth,
                  Model.env, Model.GetNS, Model.Enter, Model.SetupVeth, Sys.table, hp, hns, hv,
                  hvn, hvh, hc] at h
              | false =>
                by_cases hd : args.IfName = hn
                · simp [ns.GetNS, ns.Do, ns.Enter, ns.Restore, ns.Close, add.toRun,
                    ip.SetupVeth, Model.env, Model.GetNS, Model.Enter, Model.SetupVeth,
                    Sys.table, hp, hns, hv, hvn, hvh, hc, hd] at h
                · cases hh : hasName k1.host hn with
                  | true =>
                    simp [ns.GetNS, ns.Do, ns.Enter, ns.Restore, ns.Close, add.toRun,
                      ip.SetupVeth, Model.env, Model.GetNS, Model.Enter, Model.SetupVeth,
                      Sys.table, Sys.setTable, Sys.setNextIndex, hp, hns, hv, hvn, hvh, hc, hd,
                      hh] at h
                  | false => exact ⟨id, tbl, hn, rest, rfl, hns, rfl, rfl, hvh, hc, hd, hh⟩

/-- Whatever `add` does after a successful `createBridge`, the host link table it leaves is the
one `createBridge` left with devices appended, and possibly one master set. -/
theorem Model.add_host_after_bridge (dec : List Nat → Except Error NetConf) (args : CmdArgs)
    (k k1 : Kernel) (tr tr1 : List Event) (conf : NetConf) (b : Bridge)
    (hdec : dec args.StdinData = .ok conf)
    (hcb : createBridge (Model.env dec) ⟨⟨k, none⟩, tr⟩ = (.ok b, ⟨⟨k1, none⟩, tr1⟩)) :
    ∃ extra, (add (Model.env dec) args ⟨⟨k, none⟩, tr⟩).2.state.kernel.host = k1.host ++ extra ∨
      ∃ i m, (add (Model.env dec) args ⟨⟨k, none⟩, tr⟩).2.state.kernel.host =
        setMaster (k1.host ++ extra) i m := by
  have hdec2 : (Model.env dec).Unmarshal args.StdinData = .ok conf := hdec
  cases hp : nsOfPath k1.paths args.Netns with
  | none =>
    have hfin : (add (Model.env dec) args ⟨⟨k, none⟩, tr⟩).2.state.kernel.host = k1.host := by
      unfold add
      simp only [hdec2, hcb]
      simp [ns.GetNS, ns.Do, ns.Enter, ns.Restore, ns.Close, add.toRun, ip.SetupVeth,
          netlink.LinkByName, netlink.LinkSetMaster, Model.env, Model.GetNS, Model.Enter,
          Model.Restore, Model.Close, Model.SetupVeth, Model.LinkByName, Model.LinkSetMaster,
          Sys.table, Sys.setTable, Sys.setNextIndex,
        hp]
    exact ⟨[], Or.inl (by rw [hfin]; simp)⟩
  | some ref =>
    cases hv : k1.vethNames with
    | nil =>
      cases ref with
      | none =>
        have hfin : (add (Model.env dec) args ⟨⟨k, none⟩, tr⟩).2.state.kernel.host = k1.host := by
          unfold add
          simp only [hdec2, hcb]
          simp [ns.GetNS, ns.Do, ns.Enter, ns.Restore, ns.Close, add.toRun, ip.SetupVeth,
          netlink.LinkByName, netlink.LinkSetMaster, Model.env, Model.GetNS, Model.Enter,
          Model.Restore, Model.Close, Model.SetupVeth, Model.LinkByName, Model.LinkSetMaster,
          Sys.table, Sys.setTable, Sys.setNextIndex,
            hp, hv]
        exact ⟨[], Or.inl (by rw [hfin]; simp)⟩
      | some id =>
        cases hns : nsTable k1.netns id with
        | none =>
          have hfin : (add (Model.env dec) args ⟨⟨k, none⟩, tr⟩).2.state.kernel.host = k1.host := by
            unfold add
            simp only [hdec2, hcb]
            simp [ns.GetNS, ns.Do, ns.Enter, ns.Restore, ns.Close, add.toRun, ip.SetupVeth,
          netlink.LinkByName, netlink.LinkSetMaster, Model.env, Model.GetNS, Model.Enter,
          Model.Restore, Model.Close, Model.SetupVeth, Model.LinkByName, Model.LinkSetMaster,
          Sys.table, Sys.setTable, Sys.setNextIndex,
              hp, hv, hns]
          exact ⟨[], Or.inl (by rw [hfin]; simp)⟩
        | some tbl =>
          have hfin : (add (Model.env dec) args ⟨⟨k, none⟩, tr⟩).2.state.kernel.host = k1.host := by
            unfold add
            simp only [hdec2, hcb]
            simp [ns.GetNS, ns.Do, ns.Enter, ns.Restore, ns.Close, add.toRun, ip.SetupVeth,
          netlink.LinkByName, netlink.LinkSetMaster, Model.env, Model.GetNS, Model.Enter,
          Model.Restore, Model.Close, Model.SetupVeth, Model.LinkByName, Model.LinkSetMaster,
          Sys.table, Sys.setTable, Sys.setNextIndex,
              hp, hv, hns]
          exact ⟨[], Or.inl (by rw [hfin]; simp)⟩
    | cons hn rest =>
      cases hvv : (validIfName args.IfName && validIfName hn) with
      | false =>
        cases ref with
        | none =>
          have hfin : (add (Model.env dec) args ⟨⟨k, none⟩, tr⟩).2.state.kernel.host = k1.host := by
            unfold add
            simp only [hdec2, hcb]
            simp [ns.GetNS, ns.Do, ns.Enter, ns.Restore, ns.Close, add.toRun, ip.SetupVeth,
          netlink.LinkByName, netlink.LinkSetMaster, Model.env, Model.GetNS, Model.Enter,
          Model.Restore, Model.Close, Model.SetupVeth, Model.LinkByName, Model.LinkSetMaster,
          Sys.table, Sys.setTable, Sys.setNextIndex,
              hp, hv, hvv]
          exact ⟨[], Or.inl (by rw [hfin]; simp)⟩
        | some id =>
          cases hns : nsTable k1.netns id with
          | none =>
            have hfin : (add (Model.env dec) args ⟨⟨k, none⟩, tr⟩).2.state.kernel.host = k1.host := by
              unfold add
              simp only [hdec2, hcb]
              simp [ns.GetNS, ns.Do, ns.Enter, ns.Restore, ns.Close, add.toRun, ip.SetupVeth,
          netlink.LinkByName, netlink.LinkSetMaster, Model.env, Model.GetNS, Model.Enter,
          Model.Restore, Model.Close, Model.SetupVeth, Model.LinkByName, Model.LinkSetMaster,
          Sys.table, Sys.setTable, Sys.setNextIndex,
                hp, hv, hns]
            exact ⟨[], Or.inl (by rw [hfin]; simp)⟩
          | some tbl =>
            have hfin : (add (Model.env dec) args ⟨⟨k, none⟩, tr⟩).2.state.kernel.host = k1.host := by
              unfold add
              simp only [hdec2, hcb]
              simp [ns.GetNS, ns.Do, ns.Enter, ns.Restore, ns.Close, add.toRun, ip.SetupVeth,
          netlink.LinkByName, netlink.LinkSetMaster, Model.env, Model.GetNS, Model.Enter,
          Model.Restore, Model.Close, Model.SetupVeth, Model.LinkByName, Model.LinkSetMaster,
          Sys.table, Sys.setTable, Sys.setNextIndex,
                hp, hv, hns, hvv]
            exact ⟨[], Or.inl (by rw [hfin]; simp)⟩
      | true =>
        cases ref with
        | none =>
          cases hc : (hasName k1.host args.IfName || args.IfName == hn) with
          | true =>
            have hfin : (add (Model.env dec) args ⟨⟨k, none⟩, tr⟩).2.state.kernel.host = k1.host := by
              unfold add
              simp only [hdec2, hcb]
              simp [ns.GetNS, ns.Do, ns.Enter, ns.Restore, ns.Close, add.toRun, ip.SetupVeth,
          netlink.LinkByName, netlink.LinkSetMaster, Model.env, Model.GetNS, Model.Enter,
          Model.Restore, Model.Close, Model.SetupVeth, Model.LinkByName, Model.LinkSetMaster,
          Sys.table, Sys.setTable, Sys.setNextIndex,
                hp, hv, hvv, hc]
            exact ⟨[], Or.inl (by rw [hfin]; simp)⟩
          | false =>
            cases hh : hasName (k1.host ++ [⟨.veth, ⟨k1.nextIndex, 1500, args.IfName, true, 0⟩⟩]) hn with
            | true =>
              have hfin : (add (Model.env dec) args ⟨⟨k, none⟩, tr⟩).2.state.kernel.host = k1.host ++ [⟨.veth, ⟨k1.nextIndex, 1500, args.IfName, true, 0⟩⟩] := by
                unfold add
                simp only [hdec2, hcb]
                simp [ns.GetNS, ns.Do, ns.Enter, ns.Restore, ns.Close, add.toRun, ip.SetupVeth,
          netlink.LinkByName, netlink.LinkSetMaster, Model.env, Model.GetNS, Model.Enter,
          Model.Restore, Model.Close, Model.SetupVeth, Model.LinkByName, Model.LinkSetMaster,
          Sys.table, Sys.setTable, Sys.setNextIndex,
                  hp, hv, hvv, hc, hh]
              exact ⟨_, Or.inl hfin⟩
            | false =>
              have h1 : hasName k1.host hn = false ∧ args.IfName ≠ hn := by
                have h2 := hh
                simp only [hasName, List.any_append, List.any_cons, List.any_nil, Bool.or_false,
                  Bool.or_eq_false_iff, beq_eq_false_iff_ne] at h2
                exact ⟨h2.1, h2.2⟩
              have hb : byName k1.host hn = none := byName_eq_none_of_hasName h1.1
              have hne : args.IfName ≠ hn := h1.2
              have hfin : (add (Model.env dec) args ⟨⟨k, none⟩, tr⟩).2.state.kernel.host = setMaster (k1.host ++ ([⟨.veth, ⟨k1.nextIndex, 1500, args.IfName, true, 0⟩⟩,
                    ⟨.veth, ⟨k1.nextIndex + 1, 1500, hn, true, 0⟩⟩])) (k1.nextIndex + 1) b.LinkAttrs.Index := by
                unfold add
                simp only [hdec2, hcb]
                simp [ns.GetNS, ns.Do, ns.Enter, ns.Restore, ns.Close, add.toRun, ip.SetupVeth,
          netlink.LinkByName, netlink.LinkSetMaster, Model.env, Model.GetNS, Model.Enter,
          Model.Restore, Model.Close, Model.SetupVeth, Model.LinkByName, Model.LinkSetMaster,
          Sys.table, Sys.setTable, Sys.setNextIndex,
                  hp, hv, hvv, hc, hh, hb, hne, byName_append, byName_cons, byName_nil, hasIndex]
              exact ⟨_, Or.inr ⟨_, _, hfin⟩⟩
        | some id =>
          cases hns : nsTable k1.netns id with
          | none =>
            have hfin : (add (Model.env dec) args ⟨⟨k, none⟩, tr⟩).2.state.kernel.host = k1.host := by
              unfold add
              simp only [hdec2, hcb]
              simp [ns.GetNS, ns.Do, ns.Enter, ns.Restore, ns.Close, add.toRun, ip.SetupVeth,
          netlink.LinkByName, netlink.LinkSetMaster, Model.env, Model.GetNS, Model.Enter,
          Model.Restore, Model.Close, Model.SetupVeth, Model.LinkByName, Model.LinkSetMaster,
          Sys.table, Sys.setTable, Sys.setNextIndex,
                hp, hv, hns]
            exact ⟨[], Or.inl (by rw [hfin]; simp)⟩
          | some tbl =>
            cases hc : (hasName tbl args.IfName || args.IfName == hn) with
            | true =>
              have hfin : (add (Model.env dec) args ⟨⟨k, none⟩, tr⟩).2.state.kernel.host = k1.host := by
                unfold add
                simp only [hdec2, hcb]
                simp [ns.GetNS, ns.Do, ns.Enter, ns.Restore, ns.Close, add.toRun, ip.SetupVeth,
          netlink.LinkByName, netlink.LinkSetMaster, Model.env, Model.GetNS, Model.Enter,
          Model.Restore, Model.Close, Model.SetupVeth, Model.LinkByName, Model.LinkSetMaster,
          Sys.table, Sys.setTable, Sys.setNextIndex,
                  hp, hv, hns, hvv, hc]
              exact ⟨[], Or.inl (by rw [hfin]; simp)⟩
            | false =>
              cases hh : hasName k1.host hn with
              | true =>
                have hfin : (add (Model.env dec) args ⟨⟨k, none⟩, tr⟩).2.state.kernel.host = k1.host := by
                  unfold add
                  simp only [hdec2, hcb]
                  simp [ns.GetNS, ns.Do, ns.Enter, ns.Restore, ns.Close, add.toRun, ip.SetupVeth,
          netlink.LinkByName, netlink.LinkSetMaster, Model.env, Model.GetNS, Model.Enter,
          Model.Restore, Model.Close, Model.SetupVeth, Model.LinkByName, Model.LinkSetMaster,
          Sys.table, Sys.setTable, Sys.setNextIndex,
                    hp, hv, hns, hvv, hc, hh]
                exact ⟨[], Or.inl (by rw [hfin]; simp)⟩
              | false =>
                simp only [Bool.and_eq_true] at hvv
                simp only [Bool.or_eq_false_iff, beq_eq_false_iff_ne] at hc
                rw [Model.add_attach dec args k k1 tr tr1 conf b id tbl hn rest hdec hcb hp hns hv
                  hvv.1 hvv.2 hc.1 hc.2 hh]
                exact ⟨_, Or.inr ⟨_, _, rfl⟩⟩

/-- On the normally behaving kernel, once `createBridge` has succeeded inside `add`, the bridge
is on the host, a bridge and up, when `add` returns, whether `add` fails later or not. -/
theorem Model.add_keeps_bridge (dec : List Nat → Except Error NetConf) (args : CmdArgs)
    (k : Kernel) (conf : NetConf) (b : Bridge) (w1 : World Sys)
    (hdec : dec args.StdinData = .ok conf)
    (hcb : createBridge (Model.env dec) (boot k) = (.ok b, w1)) :
    ∃ l, byName (add (Model.env dec) args (boot k)).2.state.kernel.host bridgeName = some l ∧
      l.kind = .bridge ∧ l.attrs.Up = true := by
  obtain ⟨k1, tr1, l1, rfl, hl1, hkind, hup, _, _, _⟩ :=
    Model.createBridge_ok_post dec k [] b w1 hcb
  obtain ⟨extra, h | ⟨i, m, h⟩⟩ := Model.add_host_after_bridge dec args k k1 [] tr1 conf b hdec hcb
  · exact ⟨l1, by rw [show boot k = ⟨⟨k, none⟩, []⟩ from rfl, h]; simp [byName_append, hl1],
      hkind, hup⟩
  · refine ⟨if l1.attrs.Index = i then { l1 with attrs := { l1.attrs with MasterIndex := m } }
      else l1, ?_, ?_, ?_⟩
    · rw [show boot k = ⟨⟨k, none⟩, []⟩ from rfl, h]
      simp [byName_setMaster, byName_append, hl1]
    · split <;> simp [hkind]
    · split <;> simp [hup]

/-! ## The claims -/

/-- C1 as the code has it: on the normally behaving kernel, when no device of the host link table
(device names unique) that is called `eni-br0` is of another type than bridge, two `createBridge`
calls in succession both succeed, the kernel state after the second is the state after the first,
and in it exactly one device is called `eni-br0`, a bridge that is up. -/
theorem createBridge_twice (dec : List Nat → Except Error NetConf) (k : Kernel)
    (hnd : (k.host.map (fun d => d.attrs.Name)).Nodup)
    (hkind : ∀ l ∈ k.host, l.attrs.Name = bridgeName → l.kind = .bridge) :
    ∃ b1 b2 w1 w2 dev, createBridge (Model.env dec) (boot k) = (.ok b1, w1) ∧
      createBridge (Model.env dec) w1 = (.ok b2, w2) ∧
      w2.state = w1.state ∧
      devicesNamed w1.state.kernel.host bridgeName = [dev] ∧
      dev.kind = .bridge ∧ dev.attrs.Up = true := by
  cases h : byName k.host bridgeName with
  | some l =>
    have hk : l.kind = .bridge := hkind l (byName_mem h).1 (byName_mem h).2
    have h1 := Model.createBridge_existing dec k [] l h hk
    have hb : byName (setUp k.host l.attrs.Index) bridgeName =
        some { l with attrs := { l.attrs with Up := true } } := by
      simp [byName_setUp, h]
    have h2 := Model.createBridge_existing dec { k with host := setUp k.host l.attrs.Index }
      ([] ++ [.LinkAdd (newBridge (Model.env dec)).toLink (some syscall.EEXIST),
               .LinkByName bridgeName (.ok l), .LinkSetUp ⟨.bridge, l.attrs⟩ none])
      { l with attrs := { l.attrs with Up := true } } hb hk
    refine ⟨_, _, _, _, { l with attrs := { l.attrs with Up := true } }, h1, h2, ?_, ?_, hk,
      rfl⟩
    · simp [setUp_setUp]
    · unfold devicesNamed
      apply filter_name_of_byName _ hb
      rw [map_name_setUp]; exact hnd
  | none =>
    have h1 := Model.createBridge_fresh dec k [] h
    have hb : byName (setUp (k.host ++ [⟨.bridge, ⟨k.nextIndex, 0, bridgeName, false, 0⟩⟩])
        k.nextIndex) bridgeName = some ⟨.bridge, ⟨k.nextIndex, 0, bridgeName, true, 0⟩⟩ := by
      simp [byName_setUp, byName_append, h, byName_cons, byName_nil]
    have h2 := Model.createBridge_existing dec
      { k with host := setUp (k.host ++ [⟨.bridge, ⟨k.nextIndex, 0, bridgeName, false, 0⟩⟩])
                  k.nextIndex,
               nextIndex := k.nextIndex + 1 }
      ([] ++ [.LinkAdd (newBridge (Model.env dec)).toLink none,
        .LinkByName bridgeName (.ok ⟨.bridge, ⟨k.nextIndex, 0, bridgeName, false, 0⟩⟩),
        .LinkSetUp ⟨.bridge, ⟨k.nextIndex, 0, bridgeName, false, 0⟩⟩ none]) _ hb rfl
    refine ⟨_, _, _, _, ⟨.bridge, ⟨k.nextIndex, 0, bridgeName, true, 0⟩⟩, h1, h2, ?_, ?_, rfl,
      rfl⟩
    · simp [setUp_setUp]
    · unfold devicesNamed
      apply filter_name_of_byName _ hb
      rw [map_name_setUp]
      simp only [List.map_append, List.map_cons, List.map_nil]
      rw [List.nodup_append]
      refine ⟨hnd, by simp, ?_⟩
      intro a ha hb2
      simp only [List.mem_singleton] at hb2
      subst hb2
      exact byName_none_not_mem h ha

/-- The witness of C1 as amended: the host with no device at all. -/
theorem createBridge_twice_witness :
    (Example.k0.host.map (fun d => d.attrs.Name)).Nodup ∧
    ∃ b1 b2 w1 w2 dev, createBridge (Model.env Model.exampleUnmarshal) (boot Example.k0) =
        (.ok b1, w1) ∧
      createBridge (Model.env Model.exampleUnmarshal) w1 = (.ok b2, w2) ∧
      w2.state = w1.state ∧
      devicesNamed w1.state.kernel.host bridgeName = [dev] ∧
      dev.kind = .bridge ∧ dev.attrs.Up = true :=
  ⟨by decide, createBridge_twice Model.exampleUnmarshal Example.k0 (by decide) (by decide)⟩

/-- The counterexample to C1: the name `eni-br0` is taken by a dummy device; the kernel operations
behave normally (`LinkAdd` answers EEXIST, the lookup finds the device) and the first
`createBridge` fails, with the kernel left as it was. -/
theorem createBridge_twice_counterexample :
    createBridge (Model.env Model.exampleUnmarshal) (boot (Example.kSquat true)) =
      (.error (.New "eni-br0 is not a bridge device"),
       ⟨⟨Example.kSquat true, none⟩,
        [.LinkAdd ⟨.bridge, ⟨0, 0, "eni-br0", false, 0⟩⟩ (some syscall.EEXIST),
         .LinkByName "eni-br0" (.ok (Example.squatter true))]⟩) := by
  decide

/-- C2: on the normally behaving kernel, when the host link table (device names unique) holds a
device called `eni-br0` that is not a bridge, up or down, `createBridge` returns an error and no
bridge, the message of the error is `eni-br0 is not a bridge device`, the kernel state is the one
before the call, and no `LinkSetUp` is among the calls made. -/
theorem createBridge_type_conflict (dec : List Nat → Except Error NetConf)
    (strerror : Nat → String) (k : Kernel) (l : Link)
    (hnd : (k.host.map (fun d => d.attrs.Name)).Nodup) (hl : l ∈ k.host)
    (hname : l.attrs.Name = bridgeName) (hkind : l.kind ≠ .bridge) :
    ∃ err w, createBridge (Model.env dec) (boot k) = (.error err, w) ∧
      err.message strerror = "eni-br0 is not a bridge device" ∧
      w.state = ⟨k, none⟩ ∧ ∀ link r, Event.LinkSetUp link r ∉ w.trace := by
  have h := byName_of_mem_nodup hnd hl
  rw [hname] at h
  refine ⟨_, _, Model.createBridge_conflict dec k [] l h hkind, rfl, rfl, ?_⟩
  intro link r
  simp

/-- The witness of C2: a dummy device called `eni-br0`, once administratively up and once
down. -/
theorem createBridge_type_conflict_witness :
    (∃ err w, createBridge (Model.env Model.exampleUnmarshal) (boot (Example.kSquat true)) =
        (.error err, w) ∧
      err.message (fun _ => "") = "eni-br0 is not a bridge device" ∧
      w.state = ⟨Example.kSquat true, none⟩ ∧ ∀ link r, Event.LinkSetUp link r ∉ w.trace) ∧
    (∃ err w, createBridge (Model.env Model.exampleUnmarshal) (boot (Example.kSquat false)) =
        (.error err, w) ∧
      err.message (fun _ => "") = "eni-br0 is not a bridge device" ∧
      w.state = ⟨Example.kSquat false, none⟩ ∧ ∀ link r, Event.LinkSetUp link r ∉ w.trace) :=
  ⟨createBridge_type_conflict Model.exampleUnmarshal (fun _ => "") (Example.kSquat true)
      (Example.squatter true) (by decide) (by decide) (by decide) (by decide),
   createBridge_type_conflict Model.exampleUnmarshal (fun _ => "") (Example.kSquat false)
      (Example.squatter false) (by decide) (by decide) (by decide) (by decide)⟩

/-- C3 as the code has it: on the normally behaving kernel, when `add` returns nil and the target
namespace is not the host namespace itself: the target namespace holds a device with the
requested interface name; exactly one device of the host namespace has a name no host device had
before, the bridge apart; that device has MTU 1500 and its master is the device called `eni-br0`,
which is a bridge and up. -/
theorem add_success_state (dec : List Nat → Except Error NetConf) (k : Kernel) (args : CmdArgs)
    (hnh : nsOfPath k.paths args.Netns ≠ some none)
    (h : (add (Model.env dec) args (boot k)).1 = none) :
    ∃ id tbl c v b,
      nsOfPath k.paths args.Netns = some (some id) ∧
      nsTable (add (Model.env dec) args (boot k)).2.state.kernel.netns id = some tbl ∧
      c ∈ tbl ∧ c.attrs.Name = args.IfName ∧
      newDevices k.host (add (Model.env dec) args (boot k)).2.state.kernel.host = [v] ∧
      v.attrs.MTU = 1500 ∧
      byName (add (Model.env dec) args (boot k)).2.state.kernel.host bridgeName = some b ∧
      b.kind = .bridge ∧ b.attrs.Up = true ∧ v.attrs.MasterIndex = b.attrs.Index := by
  cases hdec : dec args.StdinData with
  | error e =>
    have hdec2 : (Model.env dec).Unmarshal args.StdinData = .error e := hdec
    simp [add, hdec2] at h
  | ok conf =>
    have hdec2 : (Model.env dec).Unmarshal args.StdinData = .ok conf := hdec
    rcases hcb : createBridge (Model.env dec) (boot k) with ⟨rb, w1⟩
    cases rb with
    | error e => simp [add, hdec2, hcb] at h
    | ok b =>
      obtain ⟨k1, tr1, l1, rfl, hl1, hkind, hup, hidx, hnames, hpaths⟩ :=
        Model.createBridge_ok_post dec k [] b w1 hcb
      obtain ⟨id, tbl, hn, rest, hp, hns, hv, hvn, hvh, hc, hd, hh⟩ :=
        Model.add_ok_inv dec args k k1 [] tr1 conf b hdec hcb (by rw [hpaths]; exact hnh) h
      have hfin := Model.add_attach dec args k k1 [] tr1 conf b id tbl hn rest hdec hcb hp hns
        hv hvn hvh hc hd hh
      have hfin2 : add (Model.env dec) args (boot k) = _ := hfin
      rw [hfin2]
      simp only []
      have hbn : bridgeName ∈ k1.host.map (fun d => d.attrs.Name) := by
        have := byName_mem hl1
        exact List.mem_map.mpr ⟨l1, this.1, this.2⟩
      have hhn : hn ∉ k1.host.map (fun d => d.attrs.Name) := by
        rw [hasName_eq_mem] at hh
        simpa using hh
      have hne : hn ≠ bridgeName := fun e => hhn (e ▸ hbn)
      have hsub : ∀ n ∈ k.host.map (fun d => d.attrs.Name),
          n ∈ k1.host.map (fun d => d.attrs.Name) := by
        intro n hn'
        rcases hnames with e | e <;> rw [e]
        · exact hn'
        · exact List.mem_append_left _ hn'
      have hold : ∀ d ∈ k1.host, (!hasName k.host d.attrs.Name &&
          decide (d.attrs.Name ≠ bridgeName)) = false := by
        intro d hd
        have hd' : d.attrs.Name ∈ k1.host.map (fun d => d.attrs.Name) :=
          List.mem_map_of_mem _ hd
        rcases hnames with e | e <;> rw [e] at hd'
        · simp [hasName_eq_mem]; intro hx; exact absurd hd' (by simpa using hx)
        · rcases List.mem_append.mp hd' with hx | hx
          · simp [hasName_eq_mem]; intro hy; exact absurd hx (by simpa using hy)
          · simp at hx; simp [hx]
      refine ⟨id, tbl ++ [⟨.veth, ⟨k1.nextIndex, 1500, args.IfName, true, 0⟩⟩],
        ⟨.veth, ⟨k1.nextIndex, 1500, args.IfName, true, 0⟩⟩,
        ⟨.veth, ⟨k1.nextIndex + 1, 1500, hn, true, b.LinkAttrs.Index⟩⟩,
        (if l1.attrs.Index = k1.nextIndex + 1 then
          { l1 with attrs := { l1.attrs with MasterIndex := b.LinkAttrs.Index } } else l1),
        by rw [← hpaths]; exact hp,
        nsTable_nsUpdate_self _ _ _ _ hns, by simp, rfl, ?_, rfl, ?_, ?_, ?_, ?_⟩
      · have hq : hasName k.host hn = false := by
          rw [hasName_eq_mem]
          simp only [decide_eq_false_iff_not]
          exact fun hx => hhn (hsub _ hx)
        unfold newDevices
        rw [filter_setMaster_name
          (fun n => !hasName k.host n && decide (n ≠ bridgeName))]
        rw [List.filter_append, List.filter_eq_nil_iff.mpr (by simpa using hold)]
        simp [setMaster, List.filter_cons, hq, hne]
      · simp [byName_setMaster, byName_append, hl1]
      · split <;> simp [hkind]
      · split <;> simp [hup]
      · split <;> simp [hidx]

/-- The witness of C3 as amended: `eth7` in `ns-A`, no bridge on the host yet. -/
theorem add_success_state_witness :
    nsOfPath Example.k0.paths Example.argsA.Netns ≠ some none ∧
    (add (Model.env Model.exampleUnmarshal) Example.argsA (boot Example.k0)).1 = none ∧
    ∃ id tbl c v b,
      nsOfPath Example.k0.paths Example.argsA.Netns = some (some id) ∧
      nsTable (add (Model.env Model.exampleUnmarshal) Example.argsA
        (boot Example.k0)).2.state.kernel.netns id = some tbl ∧
      c ∈ tbl ∧ c.attrs.Name = Example.argsA.IfName ∧
      newDevices Example.k0.host (add (Model.env Model.exampleUnmarshal) Example.argsA
        (boot Example.k0)).2.state.kernel.host = [v] ∧
      v.attrs.MTU = 1500 ∧
      byName (add (Model.env Model.exampleUnmarshal) Example.argsA
        (boot Example.k0)).2.state.kernel.host bridgeName = some b ∧
      b.kind = .bridge ∧ b.attrs.Up = true ∧ v.attrs.MasterIndex = b.attrs.Index :=
  ⟨by decide, by decide,
   add_success_state Model.exampleUnmarshal Example.k0 Example.argsA (by decide) (by decide)⟩

/-- The counterexample to C3: the target namespace is the host namespace itself
(`/proc/self/ns/net`).  `add` returns nil, and two devices of the host namespace were not there
before, the bridge apart: the container end `eth7`, which has no master, and the host end. -/
theorem add_success_state_counterexample :
    (add (Model.env Model.exampleUnmarshal) Example.argsHost (boot Example.k0)).1 = none ∧
    newDevices Example.k0.host (add (Model.env Model.exampleUnmarshal) Example.argsHost
        (boot Example.k0)).2.state.kernel.host =
      [⟨.veth, ⟨2, 1500, "eth7", true, 0⟩⟩, ⟨.veth, ⟨3, 1500, "veth0", true, 1⟩⟩] := by
  decide

/-- C5: `del` returns nil and makes no call into the kernel: the world, that is the kernel state
with the link tables of every namespace and the log of calls, is after the call what it was
before, for every environment, argument and world. -/
theorem del_returns_nil_and_changes_nothing (E : Env σ) (args : CmdArgs) (w : World σ) :
    del E args w = (none, w) := rfl

/-- C6: when `LinkAdd` answers EEXIST, `createBridge` goes on: the second call it logs is the
lookup of `eni-br0`, made in the state `LinkAdd` left.  When `LinkAdd` fails with any other error,
`createBridge` returns that error wrapped with `error creating bridge` and no bridge, the state is
the one `LinkAdd` left and the `LinkAdd` is the only call logged. -/
theorem createBridge_on_creation_error (E : Env σ) (s s1 : σ) (err : Error)
    (h : E.LinkAdd (newBridge E).toLink s = (some err, s1)) :
    (err = syscall.EEXIST →
      (createBridge E (World.init s)).2.trace.take 2 =
        [.LinkAdd (newBridge E).toLink (some err),
         .LinkByName bridgeName (E.LinkByName bridgeName s1).1]) ∧
    (err ≠ syscall.EEXIST →
      createBridge E (World.init s) =
        (.error (.Wrap err "error creating bridge"),
         ⟨s1, [.LinkAdd (newBridge E).toLink (some err)]⟩)) := by
  constructor
  · intro he
    subst he
    simp only [createBridge, netlink.LinkAdd, netlink.LinkByName, netlink.LinkSetUp, h,
      World.init]
    simp only [Option.filter, syscall.EEXIST]
    simp only [ne_eq, not_true_eq_false, decide_False, Bool.false_eq_true, ↓reduceIte]
    rcases E.LinkByName bridgeName s1 with ⟨r2, s2⟩
    cases r2 with
    | error c => simp
    | ok l =>
      simp only []
      cases l.asBridge with
      | none => simp
      | some b =>
        simp only []
        rcases E.LinkSetUp b.toLink s2 with ⟨r3, s3⟩
        cases r3 <;> simp
  · intro he
    simp [createBridge, netlink.LinkAdd, h, World.init, Option.filter, he, errors.Wrap]

/-- The witness of C6: on the host where a device `eni-br0` exists `LinkAdd` answers EEXIST and
the lookup follows; on the kernel whose `LinkAdd` fails with EPERM `createBridge` returns at
once. -/
theorem createBridge_on_creation_error_witness :
    (createBridge (Model.env Model.exampleUnmarshal)
        (World.init ⟨Example.kSquat true, none⟩)).2.trace.take 2 =
      [.LinkAdd (newBridge (Model.env Model.exampleUnmarshal)).toLink (some syscall.EEXIST),
       .LinkByName bridgeName ((Model.env Model.exampleUnmarshal).LinkByName bridgeName
          ⟨Example.kSquat true, none⟩).1] ∧
    createBridge (Model.failing Model.exampleUnmarshal .bridgeCreate (.Errno 1))
        (World.init ⟨Example.k0, none⟩) =
      (.error (.Wrap (.Errno 1) "error creating bridge"),
       ⟨⟨Example.k0, none⟩,
        [.LinkAdd (newBridge (Model.failing Model.exampleUnmarshal .bridgeCreate
          (.Errno 1))).toLink (some (.Errno 1))]⟩) :=
  ⟨(createBridge_on_creation_error (Model.env Model.exampleUnmarshal)
      ⟨Example.kSquat true, none⟩ ⟨Example.kSquat true, none⟩ syscall.EEXIST (by decide)).1 rfl,
   (createBridge_on_creation_error
      (Model.failing Model.exampleUnmarshal .bridgeCreate (.Errno 1))
      ⟨Example.k0, none⟩ ⟨Example.k0, none⟩ (.Errno 1) (by decide)).2 (by decide)⟩

/-- C7: in an `add` invocation, (a) a decoding failure returns the decoding error and leaves the
world untouched; (b) from the first failed kernel call on nothing but the release calls (the switch
back of `Do` and `Close`) is logged, so no later step is run and nothing is rolled back, and the
error returned is the error of that call, bare or wrapped in a context; (c) when the lookup of
`eni-br0` returns a device that is not a bridge, the lookup is the last call and the error is the
type conflict; (d) when the veth creation fails, neither a lookup by name nor a set-master call
follows it; (e) on the normally behaving kernel, once `createBridge` has succeeded inside `add`,
the bridge is still on the host, a bridge and up, when `add` returns, failed or not. -/
theorem add_aborts_at_first_failure (E : Env σ) (args : CmdArgs) (s : σ)
    (dec : List Nat → Except Error NetConf) (k : Kernel) :
    (∀ c, E.Unmarshal args.StdinData = .error c →
      add E args (World.init s) = (some c, World.init s)) ∧
    (∀ ev post, firstFailure (add E args (World.init s)).2.trace = ev :: post →
      (∀ x ∈ post, x.isRelease = true) ∧
      ∃ c, ev.err = some c ∧ ((add E args (World.init s)).1 = some c ∨
        ∃ ctx, (add E args (World.init s)).1 = some (.Wrap c ctx))) ∧
    (∀ l, (add E args (World.init s)).2.trace[1]? = some (.LinkByName bridgeName (.ok l)) →
      l.asBridge = none →
      (add E args (World.init s)).2.trace.length = 2 ∧
      (add E args (World.init s)).1 = some (.New "eni-br0 is not a bridge device")) ∧
    (∀ name mtu hostNS c,
      .SetupVeth name mtu hostNS (.error c) ∈ (add E args (World.init s)).2.trace →
      (add E args (World.init s)).1 = some c ∧
      ∀ x ∈ (add E args (World.init s)).2.trace.drop 3,
        (∀ n r, x ≠ .LinkByName n r) ∧ ∀ l m r, x ≠ .LinkSetMaster l m r) ∧
    (∀ conf b w1, dec args.StdinData = .ok conf →
      createBridge (Model.env dec) (boot k) = (.ok b, w1) →
      ∃ l, byName (add (Model.env dec) args (boot k)).2.state.kernel.host bridgeName = some l ∧
        l.kind = .bridge ∧ l.attrs.Up = true) := by
  have h := add_run E args s
  refine ⟨fun c h => by simp [add, h], ?_, ?_, ?_,
    fun conf b w1 hdec hcb => Model.add_keeps_bridge dec args k conf b w1 hdec hcb⟩
  · generalize (add E args (World.init s)).2.trace = t at h ⊢
    generalize (add E args (World.init s)).1 = r at h
    intro ev post hf
    cases h <;> (try cases ‹BridgeRun E _ _›) <;>
      simp_all [firstFailure, Event.err, Event.isRelease, List.dropWhile]
    all_goals
      obtain ⟨rfl, rfl⟩ := hf
      simp [Event.err, Event.isRelease]
  · generalize (add E args (World.init s)).2.trace = t at h ⊢
    generalize (add E args (World.init s)).1 = r at h
    intro l h1 h2
    cases h <;> (try cases ‹BridgeRun E _ _›) <;> simp_all [bridgeName]
  · generalize (add E args (World.init s)).2.trace = t at h ⊢
    generalize (add E args (World.init s)).1 = r at h
    intro name mtu hostNS c hm
    cases h <;> (try cases ‹BridgeRun E _ _›) <;> simp_all

/-- The witness of C7: the veth creation fails with EPERM: it is the first failed call, the
switch back and the `Close` are all that follows, and `add` returns EPERM; and on the host whose
`ns-A` already has a device `eth7` the bridge `add` created before it failed is still there. -/
theorem add_aborts_at_first_failure_witness :
    (firstFailure (add (Model.failing Model.exampleUnmarshal .veth (.Errno 1)) Example.argsA
        (World.init ⟨Example.k0, none⟩)).2.trace =
      .SetupVeth "eth7" 1500 Model.hostNS (.error (.Errno 1)) ::
        [.Restore Model.hostNS, .Close ⟨"ns-A"⟩]) ∧
    ((∀ x ∈ [Event.Restore Model.hostNS, Event.Close ⟨"ns-A"⟩], x.isRelease = true) ∧
      ∃ c, (Event.SetupVeth "eth7" 1500 Model.hostNS (.error (.Errno 1))).err = some c ∧
        ((add (Model.failing Model.exampleUnmarshal .veth (.Errno 1)) Example.argsA
            (World.init ⟨Example.k0, none⟩)).1 = some c ∨
          ∃ ctx, (add (Model.failing Model.exampleUnmarshal .veth (.Errno 1)) Example.argsA
            (World.init ⟨Example.k0, none⟩)).1 = some (.Wrap c ctx))) ∧
    (add (Model.env Model.exampleUnmarshal) Example.argsA (boot Example.kTaken)).1 =
      some (.New "container veth name provided (eth7) already exists") ∧
    ∃ l, byName (add (Model.env Model.exampleUnmarshal) Example.argsA
        (boot Example.kTaken)).2.state.kernel.host bridgeName = some l ∧
      l.kind = .bridge ∧ l.attrs.Up = true :=
  ⟨by decide,
   (add_aborts_at_first_failure (Model.failing Model.exampleUnmarshal .veth (.Errno 1))
      Example.argsA ⟨Example.k0, none⟩ Model.exampleUnmarshal Example.kTaken).2.1 _ _
      (by decide),
   by decide,
   (add_aborts_at_first_failure (Model.failing Model.exampleUnmarshal .veth (.Errno 1))
      Example.argsA ⟨Example.k0, none⟩ Model.exampleUnmarshal Example.kTaken).2.2.2.2
      ⟨"", "", ""⟩ ⟨⟨2, 0, "eni-br0", false, 0⟩⟩
      (createBridge (Model.env Model.exampleUnmarshal) (boot Example.kTaken)).2
      (by decide) (by decide)⟩

/-- C8 as the code has it: a failure of the bridge creation, of the bridge lookup or of the bridge
set-up is returned by `add` wrapped in the context of its step, and for one cause the three
messages differ; a failure of the namespace switch, of the host-end lookup or of the set-master
call is returned by `add` as it is, with no context. -/
theorem add_error_context (E : Env σ) (args : CmdArgs) (s : σ) :
    (∀ l c, (add E args (World.init s)).2.trace[0]? = some (.LinkAdd l (some c)) →
      c ≠ syscall.EEXIST →
      (add E args (World.init s)).1 = some (.Wrap c "error creating bridge")) ∧
    (∀ n c, (add E args (World.init s)).2.trace[1]? = some (.LinkByName n (.error c)) →
      (add E args (World.init s)).1 = some (.Wrap c "error looking up bridge device")) ∧
    (∀ l c, (add E args (World.init s)).2.trace[2]? = some (.LinkSetUp l (some c)) →
      (add E args (World.init s)).1 = some (.Wrap c "failed to enable bridge device")) ∧
    (∀ n c, .Enter n (.error c) ∈ (add E args (World.init s)).2.trace →
      (add E args (World.init s)).1 = some c) ∧
    (∀ n c, .LinkByName n (.error c) ∈ (add E args (World.init s)).2.trace.drop 3 →
      (add E args (World.init s)).1 = some c) ∧
    (∀ l m c, .LinkSetMaster l m (some c) ∈ (add E args (World.init s)).2.trace →
      (add E args (World.init s)).1 = some c) ∧
    (∀ (strerror : Nat → String) (c : Error),
      Error.message strerror (.Wrap c "error creating bridge") ≠
        Error.message strerror (.Wrap c "error looking up bridge device") ∧
      Error.message strerror (.Wrap c "error creating bridge") ≠
        Error.message strerror (.Wrap c "failed to enable bridge device") ∧
      Error.message strerror (.Wrap c "error looking up bridge device") ≠
        Error.message strerror (.Wrap c "failed to enable bridge device")) := by
  have h := add_run E args s
  generalize (add E args (World.init s)).2.trace = t at h ⊢
  generalize (add E args (World.init s)).1 = r at h
  refine ⟨?_, ?_, ?_, ?_, ?_, ?_, ?_⟩
  · intro l c h1 h2
    cases h <;> (try cases ‹BridgeRun E _ _›) <;> simp_all
  · intro n c h1
    cases h <;> (try cases ‹BridgeRun E _ _›) <;> simp_all
  · intro l c h1
    cases h <;> (try cases ‹BridgeRun E _ _›) <;> simp_all
  · intro n c h1
    cases h <;> (try cases ‹BridgeRun E _ _›) <;> simp_all
  · intro n c h1
    cases h <;> (try cases ‹BridgeRun E _ _›) <;> simp_all
  · intro l m c h1
    cases h <;> (try cases ‹BridgeRun E _ _›) <;> simp_all
  · intro strerror c
    simp only [Error.message]
    refine ⟨fun h => ?_, fun h => ?_, fun h => ?_⟩ <;>
      exact absurd (String.append_right_cancel _ _ _ h) (by decide)

/-- The witness of C8 as amended: a bridge lookup that fails with EPERM comes back wrapped, a
set-master call that fails with EPERM comes back bare. -/
theorem add_error_context_witness :
    (add (Model.failing Model.exampleUnmarshal .bridgeLookup (.Errno 1)) Example.argsA
        (World.init ⟨Example.k0, none⟩)).1 =
      some (.Wrap (.Errno 1) "error looking up bridge device") ∧
    (add (Model.failing Model.exampleUnmarshal .setMaster (.Errno 1)) Example.argsA
        (World.init ⟨Example.k0, none⟩)).1 = some (.Errno 1) :=
  ⟨(add_error_context (Model.failing Model.exampleUnmarshal .bridgeLookup (.Errno 1))
      Example.argsA ⟨Example.k0, none⟩).2.1 bridgeName (.Errno 1) (by decide),
   (add_error_context (Model.failing Model.exampleUnmarshal .setMaster (.Errno 1))
      Example.argsA ⟨Example.k0, none⟩).2.2.2.2.2.1 ⟨.veth, ⟨3, 1500, "veth0", true, 0⟩⟩
      ⟨⟨1, 0, "eni-br0", false, 0⟩⟩ (.Errno 1) (by decide)⟩

/-- The counterexample to C8: the host-end lookup fails with EPERM in one run, the set-master call
fails with EPERM in the other; `add` returns the bare EPERM both times, so the two failures of
different steps have the same message and no context tells the step. -/
theorem add_error_context_counterexample :
    (add (Model.failing Model.exampleUnmarshal .hostLookup (.Errno 1)) Example.argsA
        (World.init ⟨Example.k0, none⟩)).1 = some (.Errno 1) ∧
    Event.LinkByName "veth0" (.error (.Errno 1)) ∈
      (add (Model.failing Model.exampleUnmarshal .hostLookup (.Errno 1)) Example.argsA
        (World.init ⟨Example.k0, none⟩)).2.trace ∧
    (add (Model.failing Model.exampleUnmarshal .setMaster (.Errno 1)) Example.argsA
        (World.init ⟨Example.k0, none⟩)).1 = some (.Errno 1) ∧
    Event.LinkSetMaster ⟨.veth, ⟨3, 1500, "veth0", true, 0⟩⟩ ⟨⟨1, 0, "eni-br0", false, 0⟩⟩
        (some (.Errno 1)) ∈
      (add (Model.failing Model.exampleUnmarshal .setMaster (.Errno 1)) Example.argsA
        (World.init ⟨Example.k0, none⟩)).2.trace := by
  decide

/-- C9: when the standard input does not decode, `add` returns the decoding error and the world is
unchanged: no call into the kernel is logged and the kernel state is the one before. -/
theorem add_decode_error (E : Env σ) (args : CmdArgs) (w : World σ) (err : Error)
    (h : E.Unmarshal args.StdinData = .error err) : add E args w = (some err, w) := by
  simp [add, h]

/-- The witness of C9: the empty standard input. -/
theorem add_decode_error_witness :
    (Model.env Model.exampleUnmarshal).Unmarshal Example.argsEmpty.StdinData =
      .error (.New "unexpected end of JSON input") ∧
    add (Model.env Model.exampleUnmarshal) Example.argsEmpty (boot Example.k0) =
      (some (.New "unexpected end of JSON input"), boot Example.k0) :=
  ⟨rfl, add_decode_error (Model.env Model.exampleUnmarshal) Example.argsEmpty (boot Example.k0)
    (.New "unexpected end of JSON input") rfl⟩

/-- C10: in the log of an `add` invocation, when `ns.GetNS` returned a handle, exactly one
`Close` is logged, it is the `Close` of that handle and it is the last call of the invocation;
when no handle was acquired (the acquisition failed, or `add` returned before it), no `Close` is
logged. -/
theorem add_closes_acquired_handle_once (E : Env σ) (args : CmdArgs) (s : σ) :
    match acquired (add E args (World.init s)).2.trace with
    | some netns =>
      (add E args (World.init s)).2.trace.filter Event.isClose = [Event.Close netns] ∧
      (add E args (World.init s)).2.trace.getLast? = some (Event.Close netns)
    | none => (add E args (World.init s)).2.trace.filter Event.isClose = [] := by
  have h := add_run E args s
  generalize (add E args (World.init s)).2.trace = t at h ⊢
  generalize (add E args (World.init s)).1 = r at h
  cases h <;> (try cases ‹BridgeRun E _ _›) <;> simp [acquired, Event.isClose]

/-- The log of the invocation for `eth7` in `ns-A` on the host with no device: the bridge is
created, looked up and set up, the namespace is acquired, the pair is made inside it, the host end
is looked up and enslaved, the handle is closed. -/
theorem Example.add_eth7_log :
    (add (Model.env Model.exampleUnmarshal) Example.argsA (boot Example.k0)).2.trace =
      [.LinkAdd ⟨.bridge, ⟨0, 0, "eni-br0", false, 0⟩⟩ none,
       .LinkByName "eni-br0" (.ok ⟨.bridge, ⟨1, 0, "eni-br0", false, 0⟩⟩),
       .LinkSetUp ⟨.bridge, ⟨1, 0, "eni-br0", false, 0⟩⟩ none,
       .GetNS "ns-A" (.ok ⟨"ns-A"⟩),
       .Enter ⟨"ns-A"⟩ (.ok Model.hostNS),
       .SetupVeth "eth7" 1500 Model.hostNS (.ok ⟨.veth, ⟨3, 1500, "veth0", true, 0⟩⟩),
       .Restore Model.hostNS,
       .LinkByName "veth0" (.ok ⟨.veth, ⟨3, 1500, "veth0", true, 0⟩⟩),
       .LinkSetMaster ⟨.veth, ⟨3, 1500, "veth0", true, 0⟩⟩ ⟨⟨1, 0, "eni-br0", false, 0⟩⟩ none,
       .Close ⟨"ns-A"⟩] := by
  decide

end BridgePlugin
